import Mathlib

/-!
# Device discovery of the DRA example kubelet plugin

A shallow embedding of `cmd/dra-example-kubeletplugin/discovery.go`:
the seed hash (`hash`), the seeded identifier generator (`generateUUIDs`), the
synthesizer of the allocatable device set (`enumerateAllPossibleDevices`) and the mirror
of the devices published in the cluster (`getPseudoTopoDevices`).

Conventions of the embedding.

* A Go `string` read from the outside (the seed) is a sequence of bytes, `GoString`;
  text that the program itself builds is ASCII and is a Lean `String`.
* Go `int` and `int64` values are Lean integers; `int64` arithmetic wraps through
  `wrapInt64`. The conversion `int64(i)` of an `int` keeps the value.
* A Go call either returns or panics: `Outcome`.
* Slices are lists; the size of the address space is not part of the model.
* The generator behind `math/rand` is a parameter (`Source`): a state, the seeding
  function and the `Int63` step. Everything built on top of it (`Rand.Read`, the
  formatting of identifiers) is modelled concretely.
* The cluster API client is a parameter (`Client`): one list call maps the state of the
  remote side to the returned list, the returned error and the next state.
-/

namespace Discovery

/-! ## Basic Go values -/

/-- One byte. -/
abbrev Byte := Fin 256

/-- Go `string` holding arbitrary bytes (the value of an environment variable). -/
abbrev GoString := List Byte

/-- Go `error` value. -/
structure GoError where
  msg : String
deriving DecidableEq

/-- Result of running a Go function: it returns a value or it panics. -/
inductive Outcome (α : Type) where
  | ret (v : α)
  | panic (msg : String)
deriving DecidableEq

/-- Two's complement reading of an integer on 64 bits: what an `int64` holds after an
arithmetic operation whose exact result is `x`. -/
def wrapInt64 (x : Int) : Int := (x + 2 ^ 63) % 2 ^ 64 - 2 ^ 63

/-- Go `a * b` on `int64`. -/
def int64Mul (a b : Int) : Int := wrapInt64 (a * b)

/-- Go `a + b` on `int64`. -/
def int64Add (a b : Int) : Int := wrapInt64 (a + b)

/-! ## `for _, c := range s` over a string -/

/-- The replacement character U+FFFD that the range clause yields for an invalid byte. -/
def runeError : Nat := 0xFFFD

/-- Continuation byte test of the UTF-8 decoder: `locb <= b && b <= hicb`. -/
def isContinuation (b : Byte) : Bool := 0x80 ≤ b.val && b.val ≤ 0xBF

/-- Decoder used by the range clause for a non-ASCII leading byte (`decoderune` of the Go
runtime): the decoded rune and the number of bytes consumed. An invalid or truncated
sequence gives `runeError` and consumes one byte. -/
def decoderune : GoString → Nat × Nat
  | [] => (runeError, 1)
  | b0 :: rest =>
    if 0xC0 ≤ b0.val ∧ b0.val < 0xE0 then
      match rest with
      | b1 :: _ =>
        if isContinuation b1 then
          let r := ((b0.val &&& 0x1F) <<< 6) ||| (b1.val &&& 0x3F)
          if 0x7F < r then (r, 2) else (runeError, 1)
        else (runeError, 1)
      | _ => (runeError, 1)
    else if 0xE0 ≤ b0.val ∧ b0.val < 0xF0 then
      match rest with
      | b1 :: b2 :: _ =>
        if isContinuation b1 && isContinuation b2 then
          let r := ((b0.val &&& 0x0F) <<< 12) ||| ((b1.val &&& 0x3F) <<< 6) ||| (b2.val &&& 0x3F)
          if 0x7FF < r ∧ ¬ (0xD800 ≤ r ∧ r ≤ 0xDFFF) then (r, 3) else (runeError, 1)
        else (runeError, 1)
      | _ => (runeError, 1)
    else if 0xF0 ≤ b0.val ∧ b0.val < 0xF8 then
      match rest with
      | b1 :: b2 :: b3 :: _ =>
        if isContinuation b1 && isContinuation b2 && isContinuation b3 then
          let r := ((b0.val &&& 0x07) <<< 18) ||| ((b1.val &&& 0x3F) <<< 12)
            ||| ((b2.val &&& 0x3F) <<< 6) ||| (b3.val &&& 0x3F)
          if 0xFFFF < r ∧ r ≤ 0x10FFFF then (r, 4) else (runeError, 1)
        else (runeError, 1)
      | _ => (runeError, 1)
    else (runeError, 1)

/-- The runes that `for _, c := range s` yields, in order. The first argument counts the
bytes still to skip because they belong to the rune decoded last. A byte below `0x80` is
its own rune; any other leading byte goes through `decoderune`. -/
def rangeRunes : Nat → GoString → List Nat
  | _, [] => []
  | 0, b :: tl =>
    if b.val < 0x80 then b.val :: rangeRunes 0 tl
    else (decoderune (b :: tl)).1 :: rangeRunes ((decoderune (b :: tl)).2 - 1) tl
  | k + 1, _ :: tl => rangeRunes k tl

/-- Runes of a Go string as the range clause sees them. -/
def runes (s : GoString) : List Nat := rangeRunes 0 s

/-! ## `hash` -/

/-- Source `hash`: `h := 0; for _, c := range s { h = 31*h + int64(c) }; return h`. -/
def hash (s : GoString) : Int :=
  (runes s).foldl (fun (h : Int) (c : Nat) => int64Add (int64Mul 31 h) (c : Int)) 0

/-- The hash as the specification words it: the polynomial fold over the code points,
computed on unbounded integers. -/
def polyFold (cs : List Nat) : Int :=
  cs.foldl (fun (h : Int) (c : Nat) => 31 * h + (c : Int)) 0

/-! ## `math/rand` -/

/-- Generator behind `rand.NewSource(seed)`: the type of its state, the seeding function
and the step `Int63`, which gives a non-negative 63-bit integer and the next state. The
tables of the generator of `math/rand` are not part of this repository, so the generator
is a parameter of the development. -/
structure Source (σ : Type) where
  NewSource : Int → σ
  Int63 : σ → Int × σ

/-- Go `rand.Rand`: the source, and the bytes of the last `Int63` value that `Read` has not
handed out yet (`readVal`, `readPos`). -/
structure Rand (σ : Type) where
  src : σ
  readVal : Int
  readPos : Nat

/-- Go `rand.New(src)`. -/
def Rand.New {σ : Type} (src : σ) : Rand σ := ⟨src, 0, 0⟩

/-- Go `byte(val)` of an `int64`: its low eight bits. -/
def byteOf (v : Int) : Byte := ⟨(v % 256).toNat, by omega⟩

/-- Go `(*Rand).Read(p)`: fills every position of `p`, in order. A fresh `Int63` value is
drawn when no byte is left over (`readPos == 0`) and serves seven bytes, low byte first;
what is left over stays in the generator for the next call. Returns the filled buffer and
the generator afterwards. -/
def Rand.Read {σ : Type} (S : Source σ) (r : Rand σ) : List Byte → List Byte × Rand σ
  | [] => ([], r)
  | _ :: p =>
    let r1 : Rand σ :=
      if r.readPos = 0 then ⟨(S.Int63 r.src).2, (S.Int63 r.src).1, 7⟩ else r
    let out := Rand.Read S ⟨r1.src, r1.readVal >>> (8 : Nat), r1.readPos - 1⟩ p
    (byteOf r1.readVal :: out.1, out.2)

/-! ## `github.com/google/uuid` -/

/-- Go `uuid.UUID`, an array of 16 bytes. -/
abbrev UUID := List Byte

/-- The zero value of `uuid.UUID`. -/
def UUID.zero : UUID := List.replicate 16 0

/-- Go `uuid.FromBytes(b)`: a copy of `b` when it has 16 bytes, otherwise the zero UUID and
an error. -/
def FromBytes (b : List Byte) : UUID × Option GoError :=
  if b.length = 16 then (b, none)
  else (UUID.zero, some ⟨"invalid UUID (got " ++ toString b.length ++ " bytes)"⟩)

/-- The digits of `encoding/hex`: `"0123456789abcdef"`. -/
def hextable : List Char :=
  ['0', '1', '2', '3', '4', '5', '6', '7', '8', '9', 'a', 'b', 'c', 'd', 'e', 'f']

/-- Go `hex.Encode`: two digits per byte, `hextable[v>>4]` then `hextable[v&0x0f]`. -/
def hexEncode : List Byte → List Char
  | [] => []
  | v :: src =>
    hextable.getD (v.val >>> 4) '0' :: hextable.getD (v.val &&& 0x0f) '0' :: hexEncode src

/-- Go `UUID.String()` (through `encodeHex`): the bytes `[0:4]`, `[4:6]`, `[6:8]`, `[8:10]`
and `[10:]` in hexadecimal, joined by `-`. -/
def UUID.String (uuid : UUID) : String :=
  String.mk (hexEncode (uuid.take 4) ++ '-' ::
    (hexEncode ((uuid.drop 4).take 2) ++ '-' ::
    (hexEncode ((uuid.drop 6).take 2) ++ '-' ::
    (hexEncode ((uuid.drop 8).take 2) ++ '-' ::
    hexEncode (uuid.drop 10)))))

/-! ## `generateUUIDs` -/

/-- Go `make([]string, count)`: a slice of `count` empty strings; a negative length is a
run-time panic. -/
def makeStrings (count : Int) : Outcome (List String) :=
  if count < 0 then .panic "runtime error: makeslice: len out of range"
  else .ret (List.replicate count.toNat "")

/-- The loop `for i := 0; i < count; i++` of `generateUUIDs`, by the number of iterations
that remain (`count - i`): each one reads 16 bytes into a fresh buffer, turns them into a
UUID (the error of `uuid.FromBytes` is dropped) and stores `"gpu-" + uuid.String()` at
index `i`, which is below `count`, the length of the slice. -/
def generateUUIDs.loop {σ : Type} (S : Source σ) :
    Nat → Nat → Rand σ → List String → List String
  | 0, _, _, uuids => uuids
  | remaining + 1, i, rng, uuids =>
    let charset := List.replicate 16 (0 : Byte)
    let out := Rand.Read S rng charset
    let uuid := (FromBytes out.1).1
    generateUUIDs.loop S remaining (i + 1) out.2 (uuids.set i ("gpu-" ++ UUID.String uuid))

/-- Source `generateUUIDs(seed, count)`. -/
def generateUUIDs {σ : Type} (S : Source σ) (seed : GoString) (count : Int) :
    Outcome (List String) :=
  let rng := Rand.New (S.NewSource (hash seed))
  match makeStrings count with
  | .panic msg => .panic msg
  | .ret uuids => .ret (generateUUIDs.loop S count.toNat 0 rng uuids)

/-! ## Device descriptors -/

/-- Go `resourceapi.DeviceAttribute`: at most one of the four values is set. -/
structure DeviceAttribute where
  IntValue : Option Int := none
  BoolValue : Option Bool := none
  StringValue : Option String := none
  VersionValue : Option String := none
deriving DecidableEq

/-- Output format of a `resource.Quantity`. -/
inductive Format where
  | DecimalSI
  | BinarySI
deriving DecidableEq

/-- Go `resource.Quantity`: the amount in base units (bytes for memory) and its format. -/
structure Quantity where
  value : Int
  format : Format
deriving DecidableEq

/-- Go `resourceapi.DeviceCapacity`. -/
structure DeviceCapacity where
  Value : Quantity
deriving DecidableEq

/-- Go `resourceapi.Device`: the fields this program sets; every other field keeps its
zero value. -/
structure Device where
  Name : String
  Attributes : AList (fun _ : String => DeviceAttribute)
  Capacity : AList (fun _ : String => DeviceCapacity)
deriving DecidableEq

/-- Go `AllocatableDevices`, a `map[string]resourceapi.Device`: finite map with unique
keys; `m[k] = v` is `AList.insert k v m`, `len(m)` is `m.entries.length`. -/
abbrev AllocatableDevices := AList (fun _ : String => Device)

/-- Multiplier of a quantity suffix, for the suffixes of whole amounts. -/
def quantitySuffix : List Char → Option (Int × Format)
  | [] => some (1, .DecimalSI)
  | ['k'] => some (10 ^ 3, .DecimalSI)
  | ['M'] => some (10 ^ 6, .DecimalSI)
  | ['G'] => some (10 ^ 9, .DecimalSI)
  | ['T'] => some (10 ^ 12, .DecimalSI)
  | ['P'] => some (10 ^ 15, .DecimalSI)
  | ['E'] => some (10 ^ 18, .DecimalSI)
  | ['K', 'i'] => some (2 ^ 10, .BinarySI)
  | ['M', 'i'] => some (2 ^ 20, .BinarySI)
  | ['G', 'i'] => some (2 ^ 30, .BinarySI)
  | ['T', 'i'] => some (2 ^ 40, .BinarySI)
  | ['P', 'i'] => some (2 ^ 50, .BinarySI)
  | ['E', 'i'] => some (2 ^ 60, .BinarySI)
  | _ => none

/-- Value of a run of decimal digits. -/
def digitsValue (ds : List Char) : Nat :=
  ds.foldl (fun (a : Nat) (c : Char) => 10 * a + (c.toNat - 48)) 0

/-- Go `resource.MustParse(str)` on the fragment of the quantity grammar made of an
unsigned run of decimal digits followed by a suffix of `quantitySuffix`: digits times
multiplier. The function panics when the text does not parse; signs, fractions and
exponents are outside the fragment and are rejected here as well. -/
def MustParse (str : String) : Outcome Quantity :=
  let digits := str.toList.takeWhile Char.isDigit
  let suffix := str.toList.dropWhile Char.isDigit
  match digits, quantitySuffix suffix with
  | _ :: _, some (mult, format) => .ret ⟨(digitsValue digits : Int) * mult, format⟩
  | _, _ => .panic "cannot parse quantity"

/-! ## `enumerateAllPossibleDevices` -/

/-- The process environment: the value of each variable that is set. -/
abbrev Env := String → Option GoString

/-- Go `os.Getenv(key)`: the value of the variable, the empty string when it is not set. -/
def Getenv (env : Env) (key : String) : GoString := (env key).getD []

/-- Go `fmt.Sprintf("gpu-%d", i)` for a slice index `i`. -/
def deviceName (i : Nat) : String := "gpu-" ++ Nat.repr i

/-- The `resourceapi.Device` literal of the loop body, for index `i`, identifier `uuid` and
the parsed memory quantity. -/
def deviceLiteral (i : Nat) (uuid : String) (memory : Quantity) : Device :=
  { Name := deviceName i
    Attributes :=
      AList.insert "driverVersion" { VersionValue := some "1.0.0" }
      (AList.insert "model" { StringValue := some "LATEST-GPU-MODEL" }
      (AList.insert "uuid" { StringValue := some uuid }
      (AList.insert "index" { IntValue := some (i : Int) } ∅)))
    Capacity := AList.insert "memory" { Value := memory } ∅ }

/-- The loop `for i, uuid := range uuids` of `enumerateAllPossibleDevices` over the
indexed identifiers: builds the device and stores it under its name. -/
def enumerateAllPossibleDevices.loop :
    List (Nat × String) → AllocatableDevices → Outcome AllocatableDevices
  | [], alldevices => .ret alldevices
  | (i, uuid) :: rest, alldevices =>
    match MustParse "80Gi" with
    | .panic msg => .panic msg
    | .ret memory =>
      let device := deviceLiteral i uuid memory
      enumerateAllPossibleDevices.loop rest (AList.insert device.Name device alldevices)

/-- Source `enumerateAllPossibleDevices(numGPUs)`, run in the environment `env`. The
returned pair is the device set and the error (`none` for `nil`). -/
def enumerateAllPossibleDevices {σ : Type} (S : Source σ) (env : Env) (numGPUs : Int) :
    Outcome (AllocatableDevices × Option GoError) :=
  let seed := Getenv env "NODE_NAME"
  match generateUUIDs S seed numGPUs with
  | .panic msg => .panic msg
  | .ret uuids =>
    match enumerateAllPossibleDevices.loop uuids.enum ∅ with
    | .panic msg => .panic msg
    | .ret alldevices => .ret (alldevices, none)

/-! ## `getPseudoTopoDevices` -/

/-- Go `resourceapi.ResourceSliceSpec`: the devices of one slice, in order. -/
structure ResourceSliceSpec where
  Devices : List Device

/-- Go `resourceapi.ResourceSlice`: one device group of the cluster state store. -/
structure ResourceSlice where
  Spec : ResourceSliceSpec

/-- Go `resourceapi.ResourceSliceList`: the groups that a list call returns, in order. -/
structure ResourceSliceList where
  Items : List ResourceSlice

/-- The cluster API client behind `client.ResourceV1().ResourceSlices()`: `κ` is the state of
the remote side as the client sees it, `γ` the type of the context. `List ctx` is one list
call (with the empty `metav1.ListOptions{}`): it gives the returned pointer (`none` for
`nil`), the returned error (`none` for `nil`) and the state after the call. -/
structure Client (γ κ : Type) where
  List : γ → κ → (Option ResourceSliceList × Option GoError) × κ

/-- The two nested `for ... range` loops of `getPseudoTopoDevices`: every device of every
slice, in order, is stored under its name with `all[device.Name] = device`. -/
def getPseudoTopoDevices.loop (items : List ResourceSlice) (all : AllocatableDevices) :
    AllocatableDevices :=
  items.foldl (fun (all : AllocatableDevices) (resourceslice : ResourceSlice) =>
    resourceslice.Spec.Devices.foldl
      (fun (all : AllocatableDevices) (device : Device) => AList.insert device.Name device all)
      all) all

/-- Source `getPseudoTopoDevices(ctx, client)`, run when the remote side is in state `st`.
The result is the returned pair (the map, `none` for a nil map, and the error) together
with the state of the remote side afterwards. A nil list pointer returned with a nil error
is dereferenced by `resourceslices.Items` and panics. -/
def getPseudoTopoDevices {γ κ : Type} (client : Client γ κ) (ctx : γ) (st : κ) :
    Outcome ((Option AllocatableDevices × Option GoError) × κ) :=
  let called := client.List ctx st
  match called.1 with
  | (_, some err) => .ret ((none, some err), called.2)
  | (none, none) => .panic "runtime error: invalid memory address or nil pointer dereference"
  | (some resourceslices, none) =>
    .ret ((some (getPseudoTopoDevices.loop resourceslices.Items ∅), none), called.2)

/-! ## Reference notions used to state the properties -/

/-- UTF-8 encoding of a code point (RFC 3629): one to four bytes. -/
def utf8Encode (c : Nat) : GoString :=
  if c < 0x80 then [⟨c % 128, by omega⟩]
  else if c < 0x800 then [⟨0xC0 + c / 64 % 32, by omega⟩, ⟨0x80 + c % 64, by omega⟩]
  else if c < 0x10000 then
    [⟨0xE0 + c / 4096 % 16, by omega⟩, ⟨0x80 + c / 64 % 64, by omega⟩,
      ⟨0x80 + c % 64, by omega⟩]
  else
    [⟨0xF0 + c / 262144 % 8, by omega⟩, ⟨0x80 + c / 4096 % 64, by omega⟩,
      ⟨0x80 + c / 64 % 64, by omega⟩, ⟨0x80 + c % 64, by omega⟩]

/-- UTF-8 encoding of a text. -/
def utf8 : List Char → GoString
  | [] => []
  | c :: cs => utf8Encode c.toNat ++ utf8 cs

/-- Reading `m` bytes from a generator. -/
def readN {σ : Type} (S : Source σ) (r : Rand σ) (m : Nat) : List Byte × Rand σ :=
  Rand.Read S r (List.replicate m 0)

/-- State of the source after `k` steps of `Int63`. -/
def sourceAfter {σ : Type} (S : Source σ) (src : σ) : Nat → σ
  | 0 => src
  | k + 1 => (S.Int63 (sourceAfter S src k)).2

/-- The value that step number `k` of `Int63` returns. -/
def int63At {σ : Type} (S : Source σ) (src : σ) (k : Nat) : Int :=
  (S.Int63 (sourceAfter S src k)).1

/-- Byte number `k` of the stream of a generator: byte `k % 7` (low byte first) of the
value of step `k / 7`. -/
def streamByte {σ : Type} (S : Source σ) (src : σ) (k : Nat) : Byte :=
  byteOf (int63At S src (k / 7) >>> (8 * (k % 7)))

/-- The generator after `m` bytes have been read from `rand.New(src)`. -/
def randAfter {σ : Type} (S : Source σ) (src : σ) (m : Nat) : Rand σ :=
  if m = 0 then Rand.New src
  else ⟨sourceAfter S src ((m + 6) / 7),
    int63At S src ((m - 1) / 7) >>> (8 * ((m - 1) % 7 + 1)), (7 - m % 7) % 7⟩

/-- The 16 bytes drawn for ordinal `i` from the byte stream of the generator `r`: the bytes
at positions `16 * i` to `16 * i + 15` of the stream. -/
def drawnBytes {σ : Type} (S : Source σ) (r : Rand σ) (i : Nat) : List Byte :=
  (readN S r (16 * (i + 1))).1.drop (16 * i)

/-- The identifier that iteration number `t` of the loop builds when the loop starts with
the generator `r`. -/
def identAt {σ : Type} (S : Source σ) (r : Rand σ) (t : Nat) : String :=
  "gpu-" ++ UUID.String (FromBytes (readN S (readN S r (16 * t)).2 16).1).1

/-- The identifiers of `generateUUIDs` for a count `n ≥ 0`, as a list. -/
def identifiers {σ : Type} (S : Source σ) (seed : GoString) (n : Nat) : List String :=
  generateUUIDs.loop S n 0 (Rand.New (S.NewSource (hash seed))) (List.replicate n "")

/-- Lower-case hexadecimal digit of a value below 16: `0`-`9`, then `a`-`f`. -/
def lowerHexDigit (d : Nat) : Char :=
  if d < 10 then Char.ofNat (48 + d) else Char.ofNat (87 + d)

/-- The two lower-case hexadecimal digits of a byte, high digit first. -/
def hexPair (b : Byte) : List Char := [lowerHexDigit (b.val / 16), lowerHexDigit (b.val % 16)]

/-- The device set after the loop has stored the devices of the indexed identifiers `l`
into `all`. -/
def insertAll (l : List (Nat × String)) (all : AllocatableDevices) : AllocatableDevices :=
  l.foldl (fun (m : AllocatableDevices) (p : Nat × String) =>
    AList.insert (deviceName p.1) (deviceLiteral p.1 p.2 ⟨85899345920, .BinarySI⟩) m) all

/-- The device set that `enumerateAllPossibleDevices` returns for the seed `seed` and a
count `n ≥ 0`. -/
def deviceSet {σ : Type} (S : Source σ) (seed : GoString) (n : Nat) : AllocatableDevices :=
  insertAll (identifiers S seed n).enum ∅

/-- All devices of the groups in the flattened order: groups in list order, devices in order
within each group. -/
def flattenDevices (items : List ResourceSlice) : List Device :=
  items.flatMap (fun (resourceslice : ResourceSlice) => resourceslice.Spec.Devices)

/-- The last device named `x` in a list of devices, if there is one. -/
def lastNamed (x : String) (devices : List Device) : Option Device :=
  (devices.filter (fun (d : Device) => d.Name = x)).getLast?

/-- The environment `env` with `NODE_NAME` set to the empty string. -/
def withEmptyNodeName (env : Env) : Env := fun k =>
  if k = "NODE_NAME" then some [] else env k

/-! ## Inputs used to run the development -/

/-- A small linear congruential generator, used to run the development on concrete
inputs. It stands in for the generator of `math/rand`, whose output it does not
reproduce. -/
def lcgSource : Source Nat where
  NewSource := fun seed => (seed % 2 ^ 63).toNat
  Int63 := fun st =>
    (((6364136223846793005 * st + 1442695040888963407) % 2 ^ 63 : Nat),
      (6364136223846793005 * st + 1442695040888963407) % 2 ^ 64)

/-- An environment in which `NODE_NAME` is `node-1`. -/
def sampleEnv : Env := fun k =>
  if k = "NODE_NAME" then some [110, 111, 100, 101, 45, 49] else none

/-- An environment with the same `NODE_NAME` and a further variable. -/
def otherEnv : Env := fun k =>
  if k = "NODE_NAME" then some [110, 111, 100, 101, 45, 49]
  else if k = "HOME" then some [47] else none

/-- An environment in which `NODE_NAME` is not set. -/
def bareEnv : Env := fun k => if k = "HOME" then some [47] else none

/-- A device named `name` whose only attribute is an index, to tell descriptors apart. -/
def sampleDevice (name : String) (index : Int) : Device :=
  { Name := name
    Attributes := AList.insert "index" { IntValue := some index } ∅
    Capacity := ∅ }

/-- Two groups that both hold a device named `x`, and one further device. -/
def sampleSlices : ResourceSliceList :=
  ⟨[⟨⟨[sampleDevice "x" 1, sampleDevice "y" 2]⟩⟩, ⟨⟨[sampleDevice "x" 3]⟩⟩]⟩

/-- A client whose state counts the list calls made so far and whose calls all succeed
with `sampleSlices`. -/
def countingClient : Client Unit Nat where
  List := fun _ calls => ((some sampleSlices, none), calls + 1)

/-- A client whose state counts the list calls made so far and whose calls all fail, each
handing back a non-empty list next to the error. -/
def failingClient : Client Unit Nat where
  List := fun _ calls => ((some sampleSlices, some ⟨"connection refused"⟩), calls + 1)

/-! ## Facts about wrap-around arithmetic -/

theorem wrapInt64_step (a : Int) (c : Int) :
    int64Add (int64Mul 31 (wrapInt64 a)) c = wrapInt64 (31 * a + c) := by
  unfold int64Add int64Mul wrapInt64
  omega

theorem wrapInt64_zero : wrapInt64 0 = 0 := by
  unfold wrapInt64
  norm_num

theorem foldl_wrapInt64 (cs : List Nat) (a : Int) :
    cs.foldl (fun (h : Int) (c : Nat) => int64Add (int64Mul 31 h) (c : Int)) (wrapInt64 a)
      = wrapInt64 (cs.foldl (fun (h : Int) (c : Nat) => 31 * h + (c : Int)) a) := by
  induction cs generalizing a with
  | nil => rfl
  | cons c cs ih =>
    simp only [List.foldl_cons]
    rw [wrapInt64_step, ih]

/-! ## The range clause on well-formed UTF-8 -/

theorem and_mask (x k : Nat) : x &&& (2 ^ k - 1) = x % 2 ^ k :=
  Nat.and_pow_two_sub_one_eq_mod x k

theorem or_low (m z k : Nat) (hm : 2 ^ k ∣ m) (hz : z < 2 ^ k) : m ||| z = m + z := by
  obtain ⟨a, rfl⟩ := hm
  exact (Nat.mul_add_lt_is_or hz a).symm

theorem decode2 (x y : Nat) (hy : y < 64) : (x <<< 6) ||| y = x * 64 + y := by
  rw [Nat.shiftLeft_eq]
  exact or_low (x * 2 ^ 6) y 6 (Dvd.intro_left x rfl) hy

theorem decode3 (x y z : Nat) (hy : y < 64) (hz : z < 64) :
    (x <<< 12) ||| (y <<< 6) ||| z = x * 4096 + y * 64 + z := by
  rw [Nat.shiftLeft_eq, Nat.shiftLeft_eq]
  rw [or_low (x * 2 ^ 12) (y * 2 ^ 6) 12 (Dvd.intro_left x rfl) (by omega)]
  exact or_low _ z 6 ⟨x * 64 + y, by ring⟩ hz

theorem decode4 (x y z w : Nat) (hy : y < 64) (hz : z < 64) (hw : w < 64) :
    (x <<< 18) ||| (y <<< 12) ||| (z <<< 6) ||| w = x * 262144 + y * 4096 + z * 64 + w := by
  rw [Nat.shiftLeft_eq, Nat.shiftLeft_eq, Nat.shiftLeft_eq]
  rw [or_low (x * 2 ^ 18) (y * 2 ^ 12) 18 (Dvd.intro_left x rfl) (by omega)]
  rw [or_low _ (z * 2 ^ 6) 12 ⟨x * 64 + y, by ring⟩ (by omega)]
  exact or_low _ w 6 ⟨x * 4096 + y * 64 + z, by ring⟩ hw

theorem rangeRunes_utf8Encode (c : Nat) (hc : c < 0xD800 ∨ (0xDFFF < c ∧ c < 0x110000))
    (rest : GoString) :
    rangeRunes 0 (utf8Encode c ++ rest) = c :: rangeRunes 0 rest := by
  unfold utf8Encode
  by_cases h1 : c < 0x80
  · have e : c % 128 = c := by omega
    simp [h1, rangeRunes, e]
  · by_cases h2 : c < 0x800
    · have m1 : (0xC0 + c / 64 % 32) &&& 0x1F = c / 64 := by
        rw [show (0x1F : Nat) = 2 ^ 5 - 1 from rfl, and_mask]; omega
      have m2 : (0x80 + c % 64) &&& 0x3F = c % 64 := by
        rw [show (0x3F : Nat) = 2 ^ 6 - 1 from rfl, and_mask]; omega
      have hr : ((0xC0 + c / 64 % 32) &&& 0x1F) <<< 6 ||| ((0x80 + c % 64) &&& 0x3F) = c := by
        rw [m1, m2, decode2 _ _ (by omega)]; omega
      have c1 : ¬ (0xC0 + c / 64 % 32 < 0x80) := by omega
      have c2 : 0xC0 ≤ 0xC0 + c / 64 % 32 ∧ 0xC0 + c / 64 % 32 < 0xE0 := by omega
      have c3 : 0x80 ≤ 0x80 + c % 64 ∧ 0x80 + c % 64 ≤ 0xBF := by omega
      have c4 : 0x7F < c := by omega
      simp only [h1, h2, if_false, if_true, List.cons_append, List.nil_append, rangeRunes,
        decoderune, isContinuation, c1, c2, c3, hr, c4, decide_True, Bool.and_self,
        and_self, Nat.add_one_sub_one]
    · by_cases h3 : c < 0x10000
      · have m1 : (0xE0 + c / 4096 % 16) &&& 0x0F = c / 4096 := by
          rw [show (0x0F : Nat) = 2 ^ 4 - 1 from rfl, and_mask]; omega
        have m2 : (0x80 + c / 64 % 64) &&& 0x3F = c / 64 % 64 := by
          rw [show (0x3F : Nat) = 2 ^ 6 - 1 from rfl, and_mask]; omega
        have m3 : (0x80 + c % 64) &&& 0x3F = c % 64 := by
          rw [show (0x3F : Nat) = 2 ^ 6 - 1 from rfl, and_mask]; omega
        have hr : ((0xE0 + c / 4096 % 16) &&& 0x0F) <<< 12
            ||| ((0x80 + c / 64 % 64) &&& 0x3F) <<< 6 ||| ((0x80 + c % 64) &&& 0x3F) = c := by
          rw [m1, m2, m3, decode3 _ _ _ (by omega) (by omega)]; omega
        have c1 : ¬ (0xE0 + c / 4096 % 16 < 0x80) := by omega
        have c2 : ¬ (0xC0 ≤ 0xE0 + c / 4096 % 16 ∧ 0xE0 + c / 4096 % 16 < 0xE0) := by omega
        have c3 : 0xE0 ≤ 0xE0 + c / 4096 % 16 ∧ 0xE0 + c / 4096 % 16 < 0xF0 := by omega
        have c4 : 0x80 ≤ 0x80 + c / 64 % 64 ∧ 0x80 + c / 64 % 64 ≤ 0xBF := by omega
        have c5 : 0x80 ≤ 0x80 + c % 64 ∧ 0x80 + c % 64 ≤ 0xBF := by omega
        have c6 : 0x7FF < c ∧ ¬ (0xD800 ≤ c ∧ c ≤ 0xDFFF) := by omega
        simp only [h1, h2, h3, if_false, if_true, List.cons_append, List.nil_append,
          rangeRunes, decoderune, isContinuation, c1, c2, c3, c4, c5, hr, c6, decide_True,
          Bool.and_self, and_self, not_false_eq_true]
      · have m1 : (0xF0 + c / 262144 % 8) &&& 0x07 = c / 262144 := by
          rw [show (0x07 : Nat) = 2 ^ 3 - 1 from rfl, and_mask]; omega
        have m2 : (0x80 + c / 4096 % 64) &&& 0x3F = c / 4096 % 64 := by
          rw [show (0x3F : Nat) = 2 ^ 6 - 1 from rfl, and_mask]; omega
        have m3 : (0x80 + c / 64 % 64) &&& 0x3F = c / 64 % 64 := by
          rw [show (0x3F : Nat) = 2 ^ 6 - 1 from rfl, and_mask]; omega
        have m4 : (0x80 + c % 64) &&& 0x3F = c % 64 := by
          rw [show (0x3F : Nat) = 2 ^ 6 - 1 from rfl, and_mask]; omega
        have hr : ((0xF0 + c / 262144 % 8) &&& 0x07) <<< 18
            ||| ((0x80 + c / 4096 % 64) &&& 0x3F) <<< 12
            ||| ((0x80 + c / 64 % 64) &&& 0x3F) <<< 6 ||| ((0x80 + c % 64) &&& 0x3F) = c := by
          rw [m1, m2, m3, m4, decode4 _ _ _ _ (by omega) (by omega) (by omega)]; omega
        have c1 : ¬ (0xF0 + c / 262144 % 8 < 0x80) := by omega
        have c2 : ¬ (0xC0 ≤ 0xF0 + c / 262144 % 8 ∧ 0xF0 + c / 262144 % 8 < 0xE0) := by omega
        have c3 : ¬ (0xE0 ≤ 0xF0 + c / 262144 % 8 ∧ 0xF0 + c / 262144 % 8 < 0xF0) := by omega
        have c4 : 0xF0 ≤ 0xF0 + c / 262144 % 8 ∧ 0xF0 + c / 262144 % 8 < 0xF8 := by omega
        have c5 : 0x80 ≤ 0x80 + c / 4096 % 64 ∧ 0x80 + c / 4096 % 64 ≤ 0xBF := by omega
        have c6 : 0x80 ≤ 0x80 + c / 64 % 64 ∧ 0x80 + c / 64 % 64 ≤ 0xBF := by omega
        have c7 : 0x80 ≤ 0x80 + c % 64 ∧ 0x80 + c % 64 ≤ 0xBF := by omega
        have c8 : 0xFFFF < c ∧ c ≤ 0x10FFFF := by omega
        simp only [h1, h2, h3, if_false, if_true, List.cons_append, List.nil_append,
          rangeRunes, decoderune, isContinuation, c1, c2, c3, c4, c5, c6, c7, hr, c8,
          decide_True, Bool.and_self, and_self]

/-- The range clause over the UTF-8 encoding of a text yields the code points of the text. -/
theorem runes_utf8 (cs : List Char) : runes (utf8 cs) = cs.map Char.toNat := by
  unfold runes
  induction cs with
  | nil => rfl
  | cons c cs ih =>
    have hv : c.toNat < 0xD800 ∨ (0xDFFF < c.toNat ∧ c.toNat < 0x110000) := c.valid
    simp only [utf8, List.map_cons]
    rw [rangeRunes_utf8Encode c.toNat hv, ih]

/-! ## Facts about `Rand.Read` -/

theorem Read_length {σ : Type} (S : Source σ) (p : List Byte) (r : Rand σ) :
    (Rand.Read S r p).1.length = p.length := by
  induction p generalizing r with
  | nil => rfl
  | cons b p ih => simp [Rand.Read, ih]

theorem Read_append {σ : Type} (S : Source σ) (p q : List Byte) (r : Rand σ) :
    Rand.Read S r (p ++ q)
      = ((Rand.Read S r p).1 ++ (Rand.Read S (Rand.Read S r p).2 q).1,
          (Rand.Read S (Rand.Read S r p).2 q).2) := by
  induction p generalizing r with
  | nil => rfl
  | cons b p ih => simp [Rand.Read, ih]

theorem readN_length {σ : Type} (S : Source σ) (r : Rand σ) (m : Nat) :
    (readN S r m).1.length = m := by
  simp [readN, Read_length]

theorem readN_add {σ : Type} (S : Source σ) (r : Rand σ) (m k : Nat) :
    readN S r (m + k)
      = ((readN S r m).1 ++ (readN S (readN S r m).2 k).1, (readN S (readN S r m).2 k).2) := by
  unfold readN
  rw [List.replicate_add, Read_append]

theorem readN_one {σ : Type} (S : Source σ) (r : Rand σ) :
    readN S r 1
      = if r.readPos = 0 then
          ([byteOf (S.Int63 r.src).1], ⟨(S.Int63 r.src).2, (S.Int63 r.src).1 >>> (8 : Nat), 6⟩)
        else ([byteOf r.readVal], ⟨r.src, r.readVal >>> (8 : Nat), r.readPos - 1⟩) := by
  by_cases h : r.readPos = 0 <;> simp [readN, Rand.Read, h]

theorem int_shiftRight_zero (x : Int) : x >>> (0 : Nat) = x := by
  rw [Int.shiftRight_eq_div_pow]
  simp

theorem randAfter_step {σ : Type} (S : Source σ) (src : σ) (m : Nat) :
    readN S (randAfter S src m) 1 = ([streamByte S src m], randAfter S src (m + 1)) := by
  rw [readN_one]
  by_cases hm : m = 0
  · subst hm
    simp [randAfter, Rand.New, streamByte, int63At, sourceAfter, int_shiftRight_zero]
  · by_cases hr : m % 7 = 0
    · have h1 : (randAfter S src m).readPos = 0 := by simp [randAfter, hm, hr]
      have h2 : (m + 6) / 7 = m / 7 := by omega
      have h3 : (m + 1 + 6) / 7 = m / 7 + 1 := by omega
      have h4 : (m + 1 - 1) / 7 = m / 7 := by omega
      have h5 : (m + 1 - 1) % 7 + 1 = 1 := by omega
      have h6 : (7 - (m + 1) % 7) % 7 = 6 := by omega
      rw [if_pos h1]
      simp [randAfter, hm, streamByte, int63At, sourceAfter, hr, h2, h3, h4, h5, h6,
        int_shiftRight_zero]
    · have h1 : (randAfter S src m).readPos ≠ 0 := by
        simp only [randAfter, hm, if_false]; omega
      have h2 : (m + 1 + 6) / 7 = (m + 6) / 7 := by omega
      have h3 : (m + 1 - 1) / 7 = (m - 1) / 7 := by omega
      have h4 : m / 7 = (m - 1) / 7 := by omega
      have h5 : (m - 1) % 7 + 1 = m % 7 := by omega
      have h6 : (m + 1 - 1) % 7 + 1 = m % 7 + 1 := by omega
      have h7 : (7 - (m + 1) % 7) % 7 = (7 - m % 7) % 7 - 1 := by omega
      rw [if_neg h1]
      simp only [randAfter, hm, if_false, streamByte, h2, h3, h4, h5, h6, h7,
        Nat.succ_ne_zero]
      rw [Nat.mul_add, Int.shiftRight_add]

/-- Closed form of reading `m` bytes from a fresh generator. -/
theorem readN_New {σ : Type} (S : Source σ) (src : σ) (m : Nat) :
    readN S (Rand.New src) m
      = ((List.range m).map (streamByte S src), randAfter S src m) := by
  induction m with
  | zero => rfl
  | succ m ih =>
    rw [readN_add, ih, randAfter_step, List.range_succ, List.map_append]
    rfl

/-! ## The loop of `generateUUIDs` -/

theorem identAt_succ {σ : Type} (S : Source σ) (r : Rand σ) (t : Nat) :
    identAt S (readN S r 16).2 t = identAt S r (t + 1) := by
  unfold identAt
  have h : 16 * (t + 1) = 16 + 16 * t := by ring
  rw [h, readN_add]

theorem loop_length {σ : Type} (S : Source σ) (k i : Nat) (rng : Rand σ)
    (uuids : List String) :
    (generateUUIDs.loop S k i rng uuids).length = uuids.length := by
  induction k generalizing i rng uuids with
  | zero => rfl
  | succ k ih => simp [generateUUIDs.loop, ih]

theorem loop_getElem? {σ : Type} (S : Source σ) (k i : Nat) (rng : Rand σ)
    (uuids : List String) (j : Nat) :
    (generateUUIDs.loop S k i rng uuids)[j]?
      = if i ≤ j ∧ j < i + k ∧ j < uuids.length then some (identAt S rng (j - i))
        else uuids[j]? := by
  induction k generalizing i rng uuids with
  | zero =>
    have h : ¬ (i ≤ j ∧ j < i + 0 ∧ j < uuids.length) := by omega
    simp only [generateUUIDs.loop, if_neg h]
  | succ k ih =>
    have step : generateUUIDs.loop S (k + 1) i rng uuids
        = generateUUIDs.loop S k (i + 1) (readN S rng 16).2 (uuids.set i (identAt S rng 0)) :=
      rfl
    rw [step, ih, List.length_set]
    by_cases hji : j = i
    · subst hji
      have h1 : ¬ (j + 1 ≤ j ∧ j < j + 1 + k ∧ j < uuids.length) := by omega
      rw [if_neg h1]
      by_cases hlen : j < uuids.length
      · have h2 : j ≤ j ∧ j < j + (k + 1) ∧ j < uuids.length := by omega
        rw [if_pos h2, List.getElem?_set_self hlen, Nat.sub_self]
      · have h2 : ¬ (j ≤ j ∧ j < j + (k + 1) ∧ j < uuids.length) := by omega
        rw [if_neg h2, List.getElem?_set_self']
        have h3 : uuids[j]? = none := List.getElem?_eq_none (by omega)
        rw [h3]
        rfl
    · rw [List.getElem?_set_ne (Ne.symm hji)]
      by_cases hc : i + 1 ≤ j ∧ j < i + 1 + k ∧ j < uuids.length
      · have h2 : i ≤ j ∧ j < i + (k + 1) ∧ j < uuids.length := by omega
        rw [if_pos hc, if_pos h2, identAt_succ]
        have h3 : j - (i + 1) + 1 = j - i := by omega
        rw [h3]
      · have h2 : ¬ (i ≤ j ∧ j < i + (k + 1) ∧ j < uuids.length) := by omega
        rw [if_neg hc, if_neg h2]

theorem makeStrings_nat (n : Nat) : makeStrings (n : Int) = .ret (List.replicate n "") := by
  simp [makeStrings]

theorem makeStrings_neg (count : Int) (h : count < 0) :
    makeStrings count = .panic "runtime error: makeslice: len out of range" := by
  simp [makeStrings, h]

theorem generateUUIDs_nat {σ : Type} (S : Source σ) (seed : GoString) (n : Nat) :
    generateUUIDs S seed (n : Int) = .ret (identifiers S seed n) := by
  simp [generateUUIDs, makeStrings_nat, identifiers]

theorem identifiers_length {σ : Type} (S : Source σ) (seed : GoString) (n : Nat) :
    (identifiers S seed n).length = n := by
  simp [identifiers, loop_length]

theorem identifiers_getElem? {σ : Type} (S : Source σ) (seed : GoString) (n i : Nat)
    (h : i < n) :
    (identifiers S seed n)[i]? = some (identAt S (Rand.New (S.NewSource (hash seed))) i) := by
  unfold identifiers
  rw [loop_getElem?]
  simp [h]

/-! ## Decimal names never collide -/

theorem digitChar_value (d : Nat) (h : d < 10) : (Nat.digitChar d).toNat - 48 = d := by
  interval_cases d <;> rfl

theorem foldl_toDigitsCore (fuel n : Nat) (ds : List Char) (h : n < fuel) :
    (Nat.toDigitsCore 10 fuel n ds).foldl
        (fun (a : Nat) (c : Char) => 10 * a + (c.toNat - 48)) 0
      = ds.foldl (fun (a : Nat) (c : Char) => 10 * a + (c.toNat - 48)) n := by
  induction fuel generalizing n ds with
  | zero => omega
  | succ fuel ih =>
    unfold Nat.toDigitsCore
    by_cases h0 : n / 10 = 0
    · have hn : n < 10 := by omega
      have hm : n % 10 = n := Nat.mod_eq_of_lt hn
      simp only [h0, if_true, hm, List.foldl_cons, digitChar_value n hn, Nat.mul_zero,
        Nat.zero_add]
    · have hlt : n / 10 < fuel := by omega
      simp only [h0, if_false]
      rw [ih (n / 10) _ hlt]
      simp only [List.foldl_cons, digitChar_value (n % 10) (Nat.mod_lt n (by decide))]
      have : 10 * (n / 10) + n % 10 = n := Nat.div_add_mod n 10
      rw [this]

/-- Reading back the decimal text of `n` gives `n`. -/
theorem digitsValue_repr (n : Nat) : digitsValue (Nat.repr n).toList = n := by
  unfold digitsValue Nat.repr Nat.toDigits
  exact foldl_toDigitsCore (n + 1) n [] (Nat.lt_succ_self n)

theorem deviceName_toList (i : Nat) :
    (deviceName i).toList = ['g', 'p', 'u', '-'] ++ (Nat.repr i).toList := by
  unfold deviceName
  rfl

theorem deviceName_injective (i j : Nat) (h : deviceName i = deviceName j) : i = j := by
  have h1 : (deviceName i).toList = (deviceName j).toList := by rw [h]
  rw [deviceName_toList, deviceName_toList] at h1
  have h2 := List.append_cancel_left h1
  have h3 := congrArg digitsValue h2
  rwa [digitsValue_repr, digitsValue_repr] at h3

/-! ## The loop of `enumerateAllPossibleDevices` -/

theorem MustParse_80Gi : MustParse "80Gi" = .ret ⟨85899345920, .BinarySI⟩ := by
  decide

theorem enumerate_loop_eq (l : List (Nat × String)) (all : AllocatableDevices) :
    enumerateAllPossibleDevices.loop l all = .ret (insertAll l all) := by
  induction l generalizing all with
  | nil => rfl
  | cons p l ih =>
    obtain ⟨i, uuid⟩ := p
    simp only [enumerateAllPossibleDevices.loop, MustParse_80Gi, ih, insertAll,
      List.foldl_cons]
    rfl

theorem lookup_insertAll_other (us : List String) (s : Nat) (all : AllocatableDevices)
    (k : String) (hk : ∀ j, s ≤ j → j < s + us.length → k ≠ deviceName j) :
    AList.lookup k (insertAll (us.enumFrom s) all) = AList.lookup k all := by
  induction us generalizing s all with
  | nil => rfl
  | cons u us ih =>
    simp only [List.enumFrom_cons, insertAll, List.foldl_cons]
    have h1 := ih (s + 1)
      (AList.insert (deviceName s) (deviceLiteral s u ⟨85899345920, .BinarySI⟩) all)
      (fun j h1 h2 => hk j (by omega) (by simp only [List.length_cons]; omega))
    unfold insertAll at h1
    rw [h1, AList.lookup_insert_ne (hk s (le_refl s) (by simp))]

theorem lookup_insertAll_index (us : List String) (s : Nat) (all : AllocatableDevices)
    (i : Nat) (u : String) (hu : us[i]? = some u) :
    AList.lookup (deviceName (s + i)) (insertAll (us.enumFrom s) all)
      = some (deviceLiteral (s + i) u ⟨85899345920, .BinarySI⟩) := by
  induction us generalizing s all i with
  | nil => simp at hu
  | cons v us ih =>
    simp only [List.enumFrom_cons, insertAll, List.foldl_cons]
    cases i with
    | zero =>
      simp only [List.getElem?_cons_zero, Option.some.injEq] at hu
      subst hu
      have h1 := lookup_insertAll_other us (s + 1)
        (AList.insert (deviceName s) (deviceLiteral s v ⟨85899345920, .BinarySI⟩) all)
        (deviceName s)
        (fun j h1 _ hne => by have := deviceName_injective s j hne; omega)
      unfold insertAll at h1
      rw [Nat.add_zero, h1, AList.lookup_insert]
    | succ i =>
      simp only [List.getElem?_cons_succ] at hu
      have h1 := ih (s + 1)
        (AList.insert (deviceName s) (deviceLiteral s v ⟨85899345920, .BinarySI⟩) all) i hu
      unfold insertAll at h1
      have h2 : s + (i + 1) = s + 1 + i := by omega
      rw [h2, h1]

theorem length_insertAll (us : List String) (s : Nat) (all : AllocatableDevices)
    (hfresh : ∀ j, s ≤ j → j < s + us.length → deviceName j ∉ all) :
    (insertAll (us.enumFrom s) all).entries.length = all.entries.length + us.length := by
  induction us generalizing s all with
  | nil => rfl
  | cons u us ih =>
    simp only [List.enumFrom_cons, insertAll, List.foldl_cons]
    have hs : deviceName s ∉ all := hfresh s (le_refl s) (by simp)
    have h1 := ih (s + 1)
      (AList.insert (deviceName s) (deviceLiteral s u ⟨85899345920, .BinarySI⟩) all)
      (fun j h1 h2 hmem => by
        rcases (AList.mem_insert all).1 hmem with h | h
        · have := deviceName_injective j s h
          omega
        · exact hfresh j (by omega) (by simp only [List.length_cons]; omega) h)
    unfold insertAll at h1
    rw [h1, AList.insert_entries_of_neg hs]
    simp only [List.length_cons]
    omega

theorem enumerate_nat {σ : Type} (S : Source σ) (env : Env) (n : Nat) :
    enumerateAllPossibleDevices S env (n : Int)
      = .ret (deviceSet S (Getenv env "NODE_NAME") n, none) := by
  simp only [enumerateAllPossibleDevices, generateUUIDs_nat, enumerate_loop_eq, deviceSet]

/-! ## The text of an identifier -/

theorem hextable_digit (d : Nat) (h : d < 16) : hextable.getD d '0' = lowerHexDigit d := by
  interval_cases d <;> rfl

theorem hexEncode_nil : hexEncode [] = [] := rfl

theorem hexEncode_cons (v : Byte) (src : List Byte) :
    hexEncode (v :: src) = hexPair v ++ hexEncode src := by
  have h1 : v.val >>> 4 = v.val / 16 := Nat.shiftRight_eq_div_pow v.val 4
  have h2 : v.val &&& 0x0f = v.val % 16 := Nat.and_pow_two_sub_one_eq_mod v.val 4
  have h3 : v.val / 16 < 16 := by omega
  have h4 : v.val % 16 < 16 := by omega
  simp only [hexEncode, hexPair, h1, h2, hextable_digit _ h3, hextable_digit _ h4,
    List.cons_append, List.nil_append]

theorem length_succ_split {α : Type} (l : List α) (k : Nat) (h : l.length = k + 1) :
    ∃ a t, l = a :: t ∧ t.length = k := by
  cases l with
  | nil => simp at h
  | cons a t => exact ⟨a, t, rfl, by simpa using h⟩

theorem drawnBytes_eq {σ : Type} (S : Source σ) (r : Rand σ) (i : Nat) :
    drawnBytes S r i = (readN S (readN S r (16 * i)).2 16).1 := by
  unfold drawnBytes
  have h : 16 * (i + 1) = 16 * i + 16 := by ring
  rw [h, readN_add]
  exact List.drop_left' (readN_length S r (16 * i))

theorem drawnBytes_length {σ : Type} (S : Source σ) (r : Rand σ) (i : Nat) :
    (drawnBytes S r i).length = 16 := by
  rw [drawnBytes_eq, readN_length]

/-- The bytes drawn for ordinal `i` are the bytes `16 * i` to `16 * i + 15` of the stream. -/
theorem drawnBytes_stream {σ : Type} (S : Source σ) (src : σ) (i : Nat) :
    drawnBytes S (Rand.New src) i
      = (List.range 16).map (fun k => streamByte S src (16 * i + k)) := by
  unfold drawnBytes
  have h : 16 * (i + 1) = 16 * i + 16 := by ring
  rw [h, readN_New, List.range_add, List.map_append, List.map_map]
  exact List.drop_left' (by simp)

theorem identAt_eq {σ : Type} (S : Source σ) (r : Rand σ) (i : Nat) :
    identAt S r i = "gpu-" ++ UUID.String (drawnBytes S r i) := by
  unfold identAt
  rw [← drawnBytes_eq]
  simp [FromBytes, drawnBytes_length]

theorem UUID_String_toList (b0 b1 b2 b3 b4 b5 b6 b7 b8 b9 b10 b11 b12 b13 b14 b15 : Byte) :
    (UUID.String [b0, b1, b2, b3, b4, b5, b6, b7, b8, b9, b10, b11, b12, b13, b14, b15]).toList
      = hexPair b0 ++ hexPair b1 ++ hexPair b2 ++ hexPair b3 ++ ['-']
        ++ hexPair b4 ++ hexPair b5 ++ ['-'] ++ hexPair b6 ++ hexPair b7 ++ ['-']
        ++ hexPair b8 ++ hexPair b9 ++ ['-'] ++ hexPair b10 ++ hexPair b11 ++ hexPair b12
        ++ hexPair b13 ++ hexPair b14 ++ hexPair b15 := by
  simp [UUID.String, hexEncode_cons, hexEncode_nil]

theorem deviceLiteral_of_lookup (us : List String) (s : Nat) (k : String) (d : Device)
    (h : AList.lookup k (insertAll (us.enumFrom s) ∅) = some d) :
    ∃ i u, us[i]? = some u ∧ k = deviceName (s + i)
      ∧ d = deviceLiteral (s + i) u ⟨85899345920, .BinarySI⟩ := by
  by_cases hk : ∃ i, i < us.length ∧ k = deviceName (s + i)
  · obtain ⟨i, hi, rfl⟩ := hk
    have hu : us[i]? = some us[i] := List.getElem?_eq_getElem hi
    rw [lookup_insertAll_index us s ∅ i us[i] hu] at h
    exact ⟨i, us[i], hu, rfl, (Option.some.inj h).symm⟩
  · have hne : ∀ j, s ≤ j → j < s + us.length → k ≠ deviceName j := by
      intro j h1 h2 hkj
      exact hk ⟨j - s, by omega, by rw [hkj]; congr 1; omega⟩
    rw [lookup_insertAll_other us s ∅ k hne, AList.lookup_empty] at h
    cases h

/-! ## Distinct bytes give distinct identifiers -/

theorem lowerHexDigit_injective :
    ∀ d e : Fin 16, lowerHexDigit d.val = lowerHexDigit e.val → d = e := by
  decide

theorem hexPair_append_inj (a b : Byte) (l l' : List Char)
    (h : hexPair a ++ l = hexPair b ++ l') : a = b ∧ l = l' := by
  simp only [hexPair, List.cons_append, List.nil_append, List.cons.injEq] at h
  obtain ⟨h1, h2, h3⟩ := h
  have e1 := lowerHexDigit_injective ⟨a.val / 16, by omega⟩ ⟨b.val / 16, by omega⟩ h1
  have e2 := lowerHexDigit_injective ⟨a.val % 16, by omega⟩ ⟨b.val % 16, by omega⟩ h2
  have e3 : a.val / 16 = b.val / 16 := congrArg Fin.val e1
  have e4 : a.val % 16 = b.val % 16 := congrArg Fin.val e2
  exact ⟨Fin.ext (by omega), h3⟩

/-- The text of `UUID.String` loses nothing: two arrays of 16 bytes with the same text are
equal. -/
theorem UUID_String_injective (a b : List Byte) (ha : a.length = 16) (hb : b.length = 16)
    (h : UUID.String a = UUID.String b) : a = b := by
  obtain ⟨a0, s0, rfl, ha0⟩ := length_succ_split _ _ ha
  obtain ⟨a1, s1, rfl, ha1⟩ := length_succ_split _ _ ha0
  obtain ⟨a2, s2, rfl, ha2⟩ := length_succ_split _ _ ha1
  obtain ⟨a3, s3, rfl, ha3⟩ := length_succ_split _ _ ha2
  obtain ⟨a4, s4, rfl, ha4⟩ := length_succ_split _ _ ha3
  obtain ⟨a5, s5, rfl, ha5⟩ := length_succ_split _ _ ha4
  obtain ⟨a6, s6, rfl, ha6⟩ := length_succ_split _ _ ha5
  obtain ⟨a7, s7, rfl, ha7⟩ := length_succ_split _ _ ha6
  obtain ⟨a8, s8, rfl, ha8⟩ := length_succ_split _ _ ha7
  obtain ⟨a9, s9, rfl, ha9⟩ := length_succ_split _ _ ha8
  obtain ⟨a10, s10, rfl, ha10⟩ := length_succ_split _ _ ha9
  obtain ⟨a11, s11, rfl, ha11⟩ := length_succ_split _ _ ha10
  obtain ⟨a12, s12, rfl, ha12⟩ := length_succ_split _ _ ha11
  obtain ⟨a13, s13, rfl, ha13⟩ := length_succ_split _ _ ha12
  obtain ⟨a14, s14, rfl, ha14⟩ := length_succ_split _ _ ha13
  obtain ⟨a15, s15, rfl, ha15⟩ := length_succ_split _ _ ha14
  obtain rfl : s15 = [] := List.length_eq_zero.1 ha15
  obtain ⟨c0, u0, rfl, hb0⟩ := length_succ_split _ _ hb
  obtain ⟨c1, u1, rfl, hb1⟩ := length_succ_split _ _ hb0
  obtain ⟨c2, u2, rfl, hb2⟩ := length_succ_split _ _ hb1
  obtain ⟨c3, u3, rfl, hb3⟩ := length_succ_split _ _ hb2
  obtain ⟨c4, u4, rfl, hb4⟩ := length_succ_split _ _ hb3
  obtain ⟨c5, u5, rfl, hb5⟩ := length_succ_split _ _ hb4
  obtain ⟨c6, u6, rfl, hb6⟩ := length_succ_split _ _ hb5
  obtain ⟨c7, u7, rfl, hb7⟩ := length_succ_split _ _ hb6
  obtain ⟨c8, u8, rfl, hb8⟩ := length_succ_split _ _ hb7
  obtain ⟨c9, u9, rfl, hb9⟩ := length_succ_split _ _ hb8
  obtain ⟨c10, u10, rfl, hb10⟩ := length_succ_split _ _ hb9
  obtain ⟨c11, u11, rfl, hb11⟩ := length_succ_split _ _ hb10
  obtain ⟨c12, u12, rfl, hb12⟩ := length_succ_split _ _ hb11
  obtain ⟨c13, u13, rfl, hb13⟩ := length_succ_split _ _ hb12
  obtain ⟨c14, u14, rfl, hb14⟩ := length_succ_split _ _ hb13
  obtain ⟨c15, u15, rfl, hb15⟩ := length_succ_split _ _ hb14
  obtain rfl : u15 = [] := List.length_eq_zero.1 hb15
  have h' := congrArg String.toList h
  rw [UUID_String_toList, UUID_String_toList] at h'
  simp only [List.append_assoc] at h'
  obtain ⟨rfl, g1⟩ := hexPair_append_inj _ _ _ _ h'
  obtain ⟨rfl, g2⟩ := hexPair_append_inj _ _ _ _ g1
  obtain ⟨rfl, g3⟩ := hexPair_append_inj _ _ _ _ g2
  obtain ⟨rfl, g4⟩ := hexPair_append_inj _ _ _ _ g3
  have g5 := List.append_cancel_left g4
  obtain ⟨rfl, g6⟩ := hexPair_append_inj _ _ _ _ g5
  obtain ⟨rfl, g7⟩ := hexPair_append_inj _ _ _ _ g6
  have g8 := List.append_cancel_left g7
  obtain ⟨rfl, g9⟩ := hexPair_append_inj _ _ _ _ g8
  obtain ⟨rfl, g10⟩ := hexPair_append_inj _ _ _ _ g9
  have g11 := List.append_cancel_left g10
  obtain ⟨rfl, g12⟩ := hexPair_append_inj _ _ _ _ g11
  obtain ⟨rfl, g13⟩ := hexPair_append_inj _ _ _ _ g12
  have g14 := List.append_cancel_left g13
  obtain ⟨rfl, g15⟩ := hexPair_append_inj _ _ _ _ g14
  obtain ⟨rfl, g16⟩ := hexPair_append_inj _ _ _ _ g15
  obtain ⟨rfl, g17⟩ := hexPair_append_inj _ _ _ _ g16
  obtain ⟨rfl, g18⟩ := hexPair_append_inj _ _ _ _ g17
  obtain ⟨rfl, g19⟩ := hexPair_append_inj _ _ _ _ g18
  have glast : hexPair a15 ++ [] = hexPair c15 ++ [] := by simpa using g19
  obtain ⟨rfl, _⟩ := hexPair_append_inj _ _ _ _ glast
  rfl

/-- Two identifiers of one call are equal exactly when the 16 bytes drawn for them are: the
code adds no check of its own, so uniqueness is a property of the generator. -/
theorem identifiers_eq_iff {σ : Type} (S : Source σ) (seed : GoString) (n i j : Nat)
    (hi : i < n) (hj : j < n) :
    (identifiers S seed n)[i]? = (identifiers S seed n)[j]?
      ↔ drawnBytes S (Rand.New (S.NewSource (hash seed))) i
          = drawnBytes S (Rand.New (S.NewSource (hash seed))) j := by
  rw [identifiers_getElem? S seed n i hi, identifiers_getElem? S seed n j hj, identAt_eq,
    identAt_eq]
  constructor
  · intro h
    have h1 := Option.some.inj h
    have h2 : (UUID.String (drawnBytes S (Rand.New (S.NewSource (hash seed))) i)).data
        = (UUID.String (drawnBytes S (Rand.New (S.NewSource (hash seed))) j)).data := by
      have h3 := congrArg String.data h1
      rw [String.data_append, String.data_append] at h3
      exact List.append_cancel_left h3
    exact UUID_String_injective _ _ (drawnBytes_length _ _ _) (drawnBytes_length _ _ _)
      (String.ext h2)
  · intro h
    rw [h]

/-! ## The loops of `getPseudoTopoDevices` -/

theorem getPseudoTopoDevices_loop_eq (items : List ResourceSlice) (all : AllocatableDevices) :
    getPseudoTopoDevices.loop items all
      = (flattenDevices items).foldl
          (fun (all : AllocatableDevices) (device : Device) =>
            AList.insert device.Name device all) all := by
  unfold getPseudoTopoDevices.loop flattenDevices
  induction items generalizing all with
  | nil => rfl
  | cons rs items ih =>
    simp only [List.foldl_cons, List.flatMap_cons, List.foldl_append]
    exact ih _

theorem lastNamed_nil (x : String) : lastNamed x [] = none := rfl

theorem lastNamed_concat (x : String) (ds : List Device) (d : Device) :
    lastNamed x (ds ++ [d]) = if d.Name = x then some d else lastNamed x ds := by
  unfold lastNamed
  by_cases h : d.Name = x
  · simp [List.filter_append, h, List.getLast?_concat]
  · simp [List.filter_append, h]

/-- After storing the devices `ds` in order, the value under `x` is the last device named
`x`, or what was under `x` before when no device has that name. -/
theorem lookup_foldl_insert (ds : List Device) (all : AllocatableDevices) (x : String) :
    AList.lookup x (ds.foldl
        (fun (all : AllocatableDevices) (device : Device) =>
          AList.insert device.Name device all) all)
      = (lastNamed x ds).or (AList.lookup x all) := by
  induction ds using List.reverseRecOn with
  | nil => simp [lastNamed_nil]
  | append_singleton ds d ih =>
    rw [List.foldl_append, lastNamed_concat]
    simp only [List.foldl_cons, List.foldl_nil]
    by_cases h : d.Name = x
    · subst h
      rw [AList.lookup_insert, if_pos rfl]
      rfl
    · rw [AList.lookup_insert_ne (Ne.symm h), ih, if_neg h]

theorem lastNamed_isSome (x : String) (ds : List Device) :
    (lastNamed x ds).isSome ↔ ∃ d ∈ ds, d.Name = x := by
  induction ds using List.reverseRecOn with
  | nil => simp [lastNamed_nil]
  | append_singleton ds d ih =>
    rw [lastNamed_concat]
    by_cases h : d.Name = x
    · simp only [if_pos h, Option.isSome_some, true_iff]
      exact ⟨d, by simp, h⟩
    · simp only [if_neg h, ih, List.mem_append, List.mem_singleton]
      constructor
      · rintro ⟨e, he, hx⟩
        exact ⟨e, Or.inl he, hx⟩
      · rintro ⟨e, he | he, hx⟩
        · exact ⟨e, he, hx⟩
        · subst he
          exact absurd hx h

theorem lastNamed_name (x : String) (ds : List Device) (d : Device)
    (h : lastNamed x ds = some d) : d.Name = x := by
  unfold lastNamed at h
  have hm := List.mem_of_getLast?_eq_some h
  simpa using (List.mem_filter.1 hm).2

theorem lastNamed_append_of_none (x : String) (ds after : List Device)
    (h : ∀ d ∈ after, d.Name ≠ x) : lastNamed x (ds ++ after) = lastNamed x ds := by
  unfold lastNamed
  have hf : after.filter (fun (d : Device) => d.Name = x) = [] := by
    rw [List.filter_eq_nil_iff]
    intro d hd
    simpa using h d hd
  rw [List.filter_append, hf, List.append_nil]

theorem lastNamed_append_of_some (x : String) (before ds : List Device) (d : Device)
    (h : lastNamed x ds = some d) : lastNamed x (before ++ ds) = some d := by
  unfold lastNamed at h ⊢
  rw [List.filter_append, List.getLast?_append, h]
  rfl

/-- In a map whose entries sit under their own names, the names of the descriptors are
pairwise distinct. -/
theorem names_nodup (all : AllocatableDevices)
    (h : ∀ (k : String) (d : Device), AList.lookup k all = some d → d.Name = k) :
    (all.entries.map (fun e => e.2.Name)).Nodup := by
  have hk : all.entries.map (fun e => e.2.Name) = all.keys := by
    unfold AList.keys List.keys
    apply List.map_congr_left
    intro e he
    exact h e.1 e.2 (AList.mem_lookup_iff.2 he)
  rw [hk]
  exact all.keys_nodup

/-- The mirror on the sample groups: one entry for `x`, the descriptor of the later group,
and one entry for `y`; one list call was made. -/
theorem getPseudoTopoDevices_sample :
    ∃ all : AllocatableDevices,
      getPseudoTopoDevices countingClient () 0 = .ret ((some all, none), 1)
      ∧ AList.lookup "x" all = some (sampleDevice "x" 3)
      ∧ AList.lookup "y" all = some (sampleDevice "y" 2)
      ∧ all.keys = ["x", "y"] :=
  ⟨getPseudoTopoDevices.loop sampleSlices.Items ∅, rfl, rfl, rfl, rfl⟩

/-! ## Growing the count -/

theorem identifiers_take {σ : Type} (S : Source σ) (seed : GoString) (m n : Nat)
    (h : m ≤ n) : identifiers S seed m = (identifiers S seed n).take m := by
  apply List.ext_getElem?
  intro i
  rw [List.getElem?_take]
  by_cases hi : i < m
  · rw [if_pos hi, identifiers_getElem? S seed m i hi,
      identifiers_getElem? S seed n i (by omega)]
  · rw [if_neg hi]
    exact List.getElem?_eq_none (by rw [identifiers_length]; omega)

theorem deviceSet_mono {σ : Type} (S : Source σ) (seed : GoString) (m n : Nat) (h : m ≤ n)
    (k : String) (d : Device) (hk : AList.lookup k (deviceSet S seed m) = some d) :
    AList.lookup k (deviceSet S seed n) = some d := by
  obtain ⟨i, u, hu, rfl, rfl⟩ := deviceLiteral_of_lookup _ 0 k d hk
  rw [identifiers_take S seed m n h, List.getElem?_take] at hu
  have hu' : (identifiers S seed n)[i]? = some u := by
    by_cases hi : i < m
    · rwa [if_pos hi] at hu
    · rw [if_neg hi] at hu
      cases hu
  exact lookup_insertAll_index (identifiers S seed n) 0 ∅ i u hu'

theorem deviceSet_name {σ : Type} (S : Source σ) (seed : GoString) (n : Nat)
    (k : String) (d : Device) (hk : AList.lookup k (deviceSet S seed n) = some d) :
    d.Name = k := by
  obtain ⟨i, u, _, rfl, rfl⟩ := deviceLiteral_of_lookup _ 0 k d hk
  rfl

/-! ## The example with seed `node-1` -/

theorem identifiers_eq_map {σ : Type} (S : Source σ) (seed : GoString) (n : Nat) :
    identifiers S seed n
      = (List.range n).map (identAt S (Rand.New (S.NewSource (hash seed)))) := by
  apply List.ext_getElem?
  intro i
  by_cases hi : i < n
  · rw [identifiers_getElem? S seed n i hi, List.getElem?_map, List.getElem?_range hi]
    rfl
  · rw [List.getElem?_eq_none (by rw [identifiers_length]; omega),
      List.getElem?_eq_none (by simp; omega)]

theorem keys_insertAll (us : List String) (s : Nat) (all : AllocatableDevices)
    (hfresh : ∀ j, s ≤ j → j < s + us.length → deviceName j ∉ all) :
    (insertAll (us.enumFrom s) all).keys
      = ((List.range' s us.length).map deviceName).reverse ++ all.keys := by
  induction us generalizing s all with
  | nil => rfl
  | cons u us ih =>
    simp only [List.enumFrom_cons, insertAll, List.foldl_cons]
    have hs : deviceName s ∉ all := hfresh s (le_refl s) (by simp)
    have h1 := ih (s + 1)
      (AList.insert (deviceName s) (deviceLiteral s u ⟨85899345920, .BinarySI⟩) all)
      (fun j h1 h2 hmem => by
        rcases (AList.mem_insert all).1 hmem with h | h
        · have := deviceName_injective j s h
          omega
        · exact hfresh j (by omega) (by simp only [List.length_cons]; omega) h)
    unfold insertAll at h1
    rw [h1, AList.keys_insert, List.erase_of_not_mem (fun hm => hs (AList.mem_keys.2 hm))]
    simp [List.range'_succ]

theorem deviceSet_three_keys {σ : Type} (S : Source σ) (seed : GoString) :
    (deviceSet S seed 3).keys = ["gpu-2", "gpu-1", "gpu-0"] := by
  unfold deviceSet List.enum
  rw [keys_insertAll _ 0 ∅ (fun j _ _ => AList.not_mem_empty _), identifiers_length]
  rfl

theorem hash_node1 : hash [110, 111, 100, 101, 45, 49] = 3254795046 := by
  have hr : runes [110, 111, 100, 101, 45, 49] = [110, 111, 100, 101, 45, 49] := by rfl
  unfold hash
  rw [hr]
  have h := foldl_wrapInt64 [110, 111, 100, 101, 45, 49] 0
  rw [wrapInt64_zero] at h
  rw [h]
  norm_num [wrapInt64]

theorem example_entry {σ : Type} (S : Source σ) (seed : GoString) (n i : Nat) (hi : i < n) :
    ∃ (d : Device) (uuid : String),
      AList.lookup (deviceName i) (deviceSet S seed n) = some d
      ∧ d.Name = deviceName i
      ∧ AList.lookup "model" d.Attributes = some { StringValue := some "LATEST-GPU-MODEL" }
      ∧ AList.lookup "driverVersion" d.Attributes = some { VersionValue := some "1.0.0" }
      ∧ AList.lookup "memory" d.Capacity = some ⟨⟨80 * 2 ^ 30, .BinarySI⟩⟩
      ∧ (identifiers S seed n)[i]? = some uuid
      ∧ AList.lookup "uuid" d.Attributes = some { StringValue := some uuid } := by
  have hu := identifiers_getElem? S seed n i hi
  have hl := lookup_insertAll_index (identifiers S seed n) 0 ∅ i _ hu
  rw [Nat.zero_add] at hl
  exact ⟨_, _, hl, rfl, rfl, rfl, rfl, hu, rfl⟩

/-- The example with seed `node-1` and count 3, for every generator: exactly 3 descriptors,
named `gpu-0`, `gpu-1` and `gpu-2`, each with model `LATEST-GPU-MODEL`, driver version
`1.0.0` and memory capacity `80Gi`, and the descriptor `gpu-i` has the `uuid` attribute
equal to the element at position `i` of `generateUUIDs("node-1", 3)`. -/
theorem example_node1 {σ : Type} (S : Source σ) :
    ∃ (set : AllocatableDevices) (uuids : List String),
      Getenv sampleEnv "NODE_NAME" = utf8 "node-1".toList
      ∧ enumerateAllPossibleDevices S sampleEnv ((3 : Nat) : Int) = .ret (set, none)
      ∧ generateUUIDs S (utf8 "node-1".toList) ((3 : Nat) : Int) = .ret uuids
      ∧ uuids.length = 3
      ∧ set.entries.length = 3
      ∧ set.keys.Perm ["gpu-0", "gpu-1", "gpu-2"]
      ∧ ∀ (i : Nat) (name : String),
          (i, name) ∈ [(0, "gpu-0"), (1, "gpu-1"), (2, "gpu-2")] →
          ∃ (d : Device) (uuid : String),
            AList.lookup name set = some d
            ∧ d.Name = name
            ∧ AList.lookup "model" d.Attributes
                = some { StringValue := some "LATEST-GPU-MODEL" }
            ∧ AList.lookup "driverVersion" d.Attributes = some { VersionValue := some "1.0.0" }
            ∧ AList.lookup "memory" d.Capacity = some ⟨⟨80 * 2 ^ 30, .BinarySI⟩⟩
            ∧ uuids[i]? = some uuid
            ∧ AList.lookup "uuid" d.Attributes = some { StringValue := some uuid } := by
  have hseed : Getenv sampleEnv "NODE_NAME" = utf8 "node-1".toList := rfl
  have hkeys := deviceSet_three_keys S (utf8 "node-1".toList)
  refine ⟨deviceSet S (utf8 "node-1".toList) 3, identifiers S (utf8 "node-1".toList) 3, hseed,
    ?_, generateUUIDs_nat S _ 3, identifiers_length S _ 3, ?_, ?_, ?_⟩
  · rw [enumerate_nat, hseed]
  · have hlen := congrArg List.length hkeys
    unfold AList.keys List.keys at hlen
    simpa using hlen
  · rw [hkeys]
    decide
  · intro i name hmem
    simp only [List.mem_cons, Prod.mk.injEq, List.mem_nil_iff, or_false] at hmem
    rcases hmem with ⟨rfl, rfl⟩ | ⟨rfl, rfl⟩ | ⟨rfl, rfl⟩
    · exact example_entry S (utf8 "node-1".toList) 3 0 (by decide)
    · exact example_entry S (utf8 "node-1".toList) 3 1 (by decide)
    · exact example_entry S (utf8 "node-1".toList) 3 2 (by decide)

/-- For every generator, the `uuid` attribute of `gpu-i` is the identifier at position `j`
exactly when the 16 bytes drawn for the ordinals `i` and `j` are the same: whether one
identifier serves several descriptors is a property of the stream of the generator. -/
theorem example_uuid_eq_iff {σ : Type} (S : Source σ) (seed : GoString) (n i j : Nat)
    (hi : i < n) (hj : j < n) :
    (∃ (d : Device) (uuid : String),
        AList.lookup (deviceName i) (deviceSet S seed n) = some d
        ∧ AList.lookup "uuid" d.Attributes = some { StringValue := some uuid }
        ∧ (identifiers S seed n)[j]? = some uuid)
      ↔ drawnBytes S (Rand.New (S.NewSource (hash seed))) i
          = drawnBytes S (Rand.New (S.NewSource (hash seed))) j := by
  obtain ⟨d, uuid, hl, _, _, _, _, hu, hattr⟩ := example_entry S seed n i hi
  rw [← identifiers_eq_iff S seed n i j hi hj]
  constructor
  · rintro ⟨d', uuid', hl', hattr', hj'⟩
    rw [hl] at hl'
    have hd : d = d' := Option.some.inj hl'
    subst hd
    rw [hattr] at hattr'
    have hu' : uuid = uuid' := by
      have h1 := Option.some.inj hattr'
      have h2 := congrArg DeviceAttribute.StringValue h1
      exact Option.some.inj h2
    rw [hu, hj', hu']
  · intro h
    exact ⟨d, uuid, hl, hattr, by rw [← h, hu]⟩

/-! ## The claims -/

/-- C1. Determinism of the synthesizer: two runs of `enumerateAllPossibleDevices(n)`, `n ≥ 0`,
in environments that give `NODE_NAME` the same value return the same outcome, and that
outcome is one device set (the same keys, and under each key the same descriptor) with a
nil error: the result depends on the seed and the count only. -/
theorem enumerateAllPossibleDevices_deterministic {σ : Type} (S : Source σ)
    (env₁ env₂ : Env) (n : Nat)
    (h : Getenv env₁ "NODE_NAME" = Getenv env₂ "NODE_NAME") :
    enumerateAllPossibleDevices S env₁ (n : Int) = enumerateAllPossibleDevices S env₂ (n : Int)
      ∧ ∃ set : AllocatableDevices,
          enumerateAllPossibleDevices S env₁ (n : Int) = .ret (set, none)
          ∧ enumerateAllPossibleDevices S env₂ (n : Int) = .ret (set, none) := by
  rw [enumerate_nat, enumerate_nat, h]
  exact ⟨rfl, _, rfl, rfl⟩

/-- Instance of C1: two environments that differ in `HOME` only, count 3. -/
theorem enumerateAllPossibleDevices_deterministic_witness :
    Getenv sampleEnv "NODE_NAME" = Getenv otherEnv "NODE_NAME"
      ∧ (enumerateAllPossibleDevices lcgSource sampleEnv ((3 : Nat) : Int)
            = enumerateAllPossibleDevices lcgSource otherEnv ((3 : Nat) : Int)
          ∧ ∃ set : AllocatableDevices,
              enumerateAllPossibleDevices lcgSource sampleEnv ((3 : Nat) : Int) = .ret (set, none)
              ∧ enumerateAllPossibleDevices lcgSource otherEnv ((3 : Nat) : Int)
                  = .ret (set, none)) :=
  ⟨by decide, enumerateAllPossibleDevices_deterministic lcgSource sampleEnv otherEnv 3
    (by decide)⟩

/-- C2. Count fidelity: for every seed and every count `n ≥ 0`,
`enumerateAllPossibleDevices(n)` returns a nil error and a map with exactly `n` entries (the
names `gpu-0` .. `gpu-(n-1)` are pairwise different keys); for `n = 0` the map is empty. -/
theorem enumerateAllPossibleDevices_count {σ : Type} (S : Source σ) (env : Env) :
    (∀ n : Nat, ∃ set : AllocatableDevices,
        enumerateAllPossibleDevices S env (n : Int) = .ret (set, none)
        ∧ set.entries.length = n)
      ∧ enumerateAllPossibleDevices S env 0 = .ret (∅, none)
      ∧ Function.Injective deviceName := by
  refine ⟨fun n => ⟨_, enumerate_nat S env n, ?_⟩, enumerate_nat S env 0, ?_⟩
  · unfold deviceSet List.enum
    rw [length_insertAll _ 0 ∅ (fun j _ _ => AList.not_mem_empty _), identifiers_length]
    simp
  · exact fun i j h => deviceName_injective i j h

/-- C3. Naming scheme: for every seed, count `n ≥ 0` and ordinal `i < n`, the returned set
has an entry under the key `gpu-` followed by the decimal text of `i`; its descriptor has
that name, its `index` attribute is the integer `i` and its `uuid` attribute is the string
at position `i` of `generateUUIDs(seed, n)`. -/
theorem enumerateAllPossibleDevices_entry {σ : Type} (S : Source σ) (env : Env)
    (n i : Nat) (h : i < n) :
    ∃ (set : AllocatableDevices) (uuids : List String) (uuid : String) (d : Device),
      enumerateAllPossibleDevices S env (n : Int) = .ret (set, none)
      ∧ generateUUIDs S (Getenv env "NODE_NAME") (n : Int) = .ret uuids
      ∧ uuids[i]? = some uuid
      ∧ AList.lookup ("gpu-" ++ toString i) set = some d
      ∧ d.Name = "gpu-" ++ toString i
      ∧ AList.lookup "index" d.Attributes = some { IntValue := some (i : Int) }
      ∧ AList.lookup "uuid" d.Attributes = some { StringValue := some uuid } := by
  have hu := identifiers_getElem? S (Getenv env "NODE_NAME") n i h
  have hl := lookup_insertAll_index (identifiers S (Getenv env "NODE_NAME") n) 0 ∅ i _ hu
  rw [Nat.zero_add] at hl
  exact ⟨_, _, _, _, enumerate_nat S env n, generateUUIDs_nat S _ n, hu, hl, rfl, rfl, rfl⟩

/-- Instance of C3: seed `node-1`, count 3, ordinal 1. -/
theorem enumerateAllPossibleDevices_entry_witness :
    (1 : Nat) < 3
      ∧ ∃ (set : AllocatableDevices) (uuids : List String) (uuid : String) (d : Device),
        enumerateAllPossibleDevices lcgSource sampleEnv ((3 : Nat) : Int) = .ret (set, none)
        ∧ generateUUIDs lcgSource (Getenv sampleEnv "NODE_NAME") ((3 : Nat) : Int) = .ret uuids
        ∧ uuids[1]? = some uuid
        ∧ AList.lookup ("gpu-" ++ toString 1) set = some d
        ∧ d.Name = "gpu-" ++ toString 1
        ∧ AList.lookup "index" d.Attributes = some { IntValue := some ((1 : Nat) : Int) }
        ∧ AList.lookup "uuid" d.Attributes = some { StringValue := some uuid } :=
  ⟨by decide, enumerateAllPossibleDevices_entry lcgSource sampleEnv 3 1 (by decide)⟩

/-- C5, as stated, fails: for the count `-1` the call does not return at all, so it returns
no error value of any kind; it stops with the panic of `make([]string, -1)`. -/
theorem enumerateAllPossibleDevices_negative_counterexample :
    enumerateAllPossibleDevices lcgSource sampleEnv (-1)
        = .panic "runtime error: makeslice: len out of range"
      ∧ ¬ ∃ (set : AllocatableDevices) (err : Option GoError),
          enumerateAllPossibleDevices lcgSource sampleEnv (-1) = .ret (set, err) := by
  have h : enumerateAllPossibleDevices lcgSource sampleEnv (-1)
      = .panic "runtime error: makeslice: len out of range" := by
    simp [enumerateAllPossibleDevices, generateUUIDs, makeStrings]
  refine ⟨h, ?_⟩
  rintro ⟨set, err, h2⟩
  rw [h] at h2
  cases h2

/-- C5, amended. For every negative device count (and any seed and generator),
`enumerateAllPossibleDevices` does not return: the allocation of the identifier slice in
`generateUUIDs` panics, and neither a device set nor an error value comes back. -/
theorem enumerateAllPossibleDevices_negative {σ : Type} (S : Source σ) (env : Env)
    (numGPUs : Int) (h : numGPUs < 0) :
    enumerateAllPossibleDevices S env numGPUs
      = .panic "runtime error: makeslice: len out of range" := by
  simp [enumerateAllPossibleDevices, generateUUIDs, makeStrings_neg numGPUs h]

/-- Instance of the amended C5: count `-2`. -/
theorem enumerateAllPossibleDevices_negative_witness :
    (-2 : Int) < 0
      ∧ enumerateAllPossibleDevices lcgSource sampleEnv (-2)
          = .panic "runtime error: makeslice: len out of range" :=
  ⟨by decide, enumerateAllPossibleDevices_negative lcgSource sampleEnv (-2) (by decide)⟩

/-- C6, as stated, fails: for the empty seed and the count `-1`, `generateUUIDs` panics and
returns no sequence. -/
theorem generateUUIDs_negative_counterexample :
    generateUUIDs lcgSource [] (-1) = .panic "runtime error: makeslice: len out of range"
      ∧ ¬ ∃ uuids : List String, generateUUIDs lcgSource [] (-1) = .ret uuids := by
  have h : generateUUIDs lcgSource [] (-1)
      = .panic "runtime error: makeslice: len out of range" := by
    simp [generateUUIDs, makeStrings]
  refine ⟨h, ?_⟩
  rintro ⟨uuids, h2⟩
  rw [h] at h2
  cases h2

/-- C6, amended. For every seed (any bytes, the empty string included) and every count,
`generateUUIDs` returns a sequence without panicking when the count is zero or positive,
and panics in `make` when the count is negative. -/
theorem generateUUIDs_total {σ : Type} (S : Source σ) (seed : GoString) (count : Int) :
    ∃ uuids : List String,
      generateUUIDs S seed count
        = if count < 0 then .panic "runtime error: makeslice: len out of range"
          else .ret uuids := by
  by_cases h : count < 0
  · exact ⟨[], by simp [generateUUIDs, makeStrings_neg count h, h]⟩
  · obtain ⟨n, rfl⟩ := Int.eq_ofNat_of_zero_le (not_lt.1 h)
    exact ⟨identifiers S seed n, by rw [if_neg h, generateUUIDs_nat]⟩

/-- C7. For every seed and every count `n ≥ 0`, `generateUUIDs(seed, n)` returns a sequence
of length exactly `n`; for `n = 0` it returns the empty sequence. -/
theorem generateUUIDs_length {σ : Type} (S : Source σ) (seed : GoString) :
    (∀ n : Nat, ∃ uuids : List String,
        generateUUIDs S seed (n : Int) = .ret uuids ∧ uuids.length = n)
      ∧ generateUUIDs S seed 0 = .ret [] :=
  ⟨fun n => ⟨_, generateUUIDs_nat S seed n, identifiers_length S seed n⟩,
    generateUUIDs_nat S seed 0⟩

/-- C8. For every string, `hash` is the left fold `h := 31*h + c` over the code points of
the string, in order, from `h = 0`, taken modulo `2^64` and read as a signed 64-bit
integer (the value in `[-2^63, 2^63)` congruent to the fold): over the runes that the range
clause yields for any byte string, which for the UTF-8 encoding of a text are the code
points of the text; the hash of the empty string is `0`. -/
theorem hash_eq_polyFold :
    (∀ s : GoString, hash s = wrapInt64 (polyFold (runes s)))
      ∧ (∀ s : GoString, -2 ^ 63 ≤ hash s ∧ hash s < 2 ^ 63
          ∧ (hash s - polyFold (runes s)) % 2 ^ 64 = 0)
      ∧ (∀ cs : List Char, hash (utf8 cs) = wrapInt64 (polyFold (cs.map Char.toNat)))
      ∧ hash [] = 0 := by
  have h1 : ∀ s : GoString, hash s = wrapInt64 (polyFold (runes s)) := by
    intro s
    unfold hash polyFold
    have h := foldl_wrapInt64 (runes s) 0
    rwa [wrapInt64_zero] at h
  refine ⟨h1, fun s => ?_, fun cs => by rw [h1, runes_utf8], rfl⟩
  rw [h1]
  unfold wrapInt64
  omega

/-- C9. For every seed, count `n ≥ 0` and ordinal `i < n`, the identifier at position `i`
is `gpu-` followed by the 16 bytes drawn for ordinal `i` from the stream seeded with
`hash(seed)` (the bytes `16 * i` to `16 * i + 15` of that stream), each byte written as
its own two lower-case hexadecimal digits, grouped 8-4-4-4-12 with `-` between the
groups; it has 40 characters. -/
theorem generateUUIDs_format {σ : Type} (S : Source σ) (seed : GoString) (n i : Nat)
    (h : i < n) :
    ∃ (uuids : List String) (id : String)
      (b0 b1 b2 b3 b4 b5 b6 b7 b8 b9 b10 b11 b12 b13 b14 b15 : Byte),
      generateUUIDs S seed (n : Int) = .ret uuids
      ∧ uuids[i]? = some id
      ∧ drawnBytes S (Rand.New (S.NewSource (hash seed))) i
          = [b0, b1, b2, b3, b4, b5, b6, b7, b8, b9, b10, b11, b12, b13, b14, b15]
      ∧ (List.range 16).map (fun k => streamByte S (S.NewSource (hash seed)) (16 * i + k))
          = [b0, b1, b2, b3, b4, b5, b6, b7, b8, b9, b10, b11, b12, b13, b14, b15]
      ∧ id.toList = ['g', 'p', 'u', '-']
          ++ hexPair b0 ++ hexPair b1 ++ hexPair b2 ++ hexPair b3 ++ ['-']
          ++ hexPair b4 ++ hexPair b5 ++ ['-'] ++ hexPair b6 ++ hexPair b7 ++ ['-']
          ++ hexPair b8 ++ hexPair b9 ++ ['-'] ++ hexPair b10 ++ hexPair b11 ++ hexPair b12
          ++ hexPair b13 ++ hexPair b14 ++ hexPair b15
      ∧ id.length = 40 := by
  have hlen := drawnBytes_length S (Rand.New (S.NewSource (hash seed))) i
  obtain ⟨b0, t0, e0, l0⟩ := length_succ_split _ _ hlen
  obtain ⟨b1, t1, e1, l1⟩ := length_succ_split _ _ l0
  obtain ⟨b2, t2, e2, l2⟩ := length_succ_split _ _ l1
  obtain ⟨b3, t3, e3, l3⟩ := length_succ_split _ _ l2
  obtain ⟨b4, t4, e4, l4⟩ := length_succ_split _ _ l3
  obtain ⟨b5, t5, e5, l5⟩ := length_succ_split _ _ l4
  obtain ⟨b6, t6, e6, l6⟩ := length_succ_split _ _ l5
  obtain ⟨b7, t7, e7, l7⟩ := length_succ_split _ _ l6
  obtain ⟨b8, t8, e8, l8⟩ := length_succ_split _ _ l7
  obtain ⟨b9, t9, e9, l9⟩ := length_succ_split _ _ l8
  obtain ⟨b10, t10, e10, l10⟩ := length_succ_split _ _ l9
  obtain ⟨b11, t11, e11, l11⟩ := length_succ_split _ _ l10
  obtain ⟨b12, t12, e12, l12⟩ := length_succ_split _ _ l11
  obtain ⟨b13, t13, e13, l13⟩ := length_succ_split _ _ l12
  obtain ⟨b14, t14, e14, l14⟩ := length_succ_split _ _ l13
  obtain ⟨b15, t15, e15, l15⟩ := length_succ_split _ _ l14
  have e16 : t15 = [] := List.length_eq_zero.1 l15
  subst e16 e15 e14 e13 e12 e11 e10 e9 e8 e7 e6 e5 e4 e3 e2 e1
  have hid := identifiers_getElem? S seed n i h
  rw [identAt_eq, e0] at hid
  have htext : (UUID.String
      [b0, b1, b2, b3, b4, b5, b6, b7, b8, b9, b10, b11, b12, b13, b14, b15]).data = _ :=
    UUID_String_toList b0 b1 b2 b3 b4 b5 b6 b7 b8 b9 b10 b11 b12 b13 b14 b15
  refine ⟨_, _, b0, b1, b2, b3, b4, b5, b6, b7, b8, b9, b10, b11, b12, b13, b14, b15,
    generateUUIDs_nat S seed n, hid, e0, by rw [← drawnBytes_stream, e0], ?_, ?_⟩
  · rw [String.toList, String.data_append, htext]
    have hgpu : "gpu-".data = ['g', 'p', 'u', '-'] := rfl
    rw [hgpu]
    simp only [List.append_assoc]
  · rw [String.length, String.data_append, htext]
    have hgpu : "gpu-".data = ['g', 'p', 'u', '-'] := rfl
    rw [hgpu]
    simp [hexPair]

/-- Instance of C9: seed `node-1`, count 3, ordinal 2. -/
theorem generateUUIDs_format_witness :
    (2 : Nat) < 3
      ∧ ∃ (uuids : List String) (id : String)
        (b0 b1 b2 b3 b4 b5 b6 b7 b8 b9 b10 b11 b12 b13 b14 b15 : Byte),
        generateUUIDs lcgSource [110, 111, 100, 101, 45, 49] ((3 : Nat) : Int) = .ret uuids
        ∧ uuids[2]? = some id
        ∧ drawnBytes lcgSource
            (Rand.New (lcgSource.NewSource (hash [110, 111, 100, 101, 45, 49]))) 2
            = [b0, b1, b2, b3, b4, b5, b6, b7, b8, b9, b10, b11, b12, b13, b14, b15]
        ∧ (List.range 16).map (fun k =>
              streamByte lcgSource (lcgSource.NewSource (hash [110, 111, 100, 101, 45, 49]))
                (16 * 2 + k))
            = [b0, b1, b2, b3, b4, b5, b6, b7, b8, b9, b10, b11, b12, b13, b14, b15]
        ∧ id.toList = ['g', 'p', 'u', '-']
            ++ hexPair b0 ++ hexPair b1 ++ hexPair b2 ++ hexPair b3 ++ ['-']
            ++ hexPair b4 ++ hexPair b5 ++ ['-'] ++ hexPair b6 ++ hexPair b7 ++ ['-']
            ++ hexPair b8 ++ hexPair b9 ++ ['-'] ++ hexPair b10 ++ hexPair b11 ++ hexPair b12
            ++ hexPair b13 ++ hexPair b14 ++ hexPair b15
        ∧ id.length = 40 :=
  ⟨by decide, generateUUIDs_format lcgSource [110, 111, 100, 101, 45, 49] 3 2 (by decide)⟩

/-- C10. For every seed and count `n ≥ 0`, every descriptor of the returned set has exactly
the attribute keys `index`, `uuid`, `model` and `driverVersion`, with `model` the string
`LATEST-GPU-MODEL` and `driverVersion` the version `1.0.0`, and exactly one capacity key,
`memory`, whose quantity is `80Gi`, that is `80 * 2^30 = 85899345920` bytes. -/
theorem enumerateAllPossibleDevices_constants {σ : Type} (S : Source σ) (env : Env)
    (n : Nat) :
    ∃ set : AllocatableDevices,
      enumerateAllPossibleDevices S env (n : Int) = .ret (set, none)
      ∧ ∀ (k : String) (d : Device), AList.lookup k set = some d →
          d.Attributes.keys.Perm ["index", "uuid", "model", "driverVersion"]
          ∧ AList.lookup "model" d.Attributes = some { StringValue := some "LATEST-GPU-MODEL" }
          ∧ AList.lookup "driverVersion" d.Attributes = some { VersionValue := some "1.0.0" }
          ∧ d.Capacity.keys = ["memory"]
          ∧ AList.lookup "memory" d.Capacity = some ⟨⟨80 * 2 ^ 30, .BinarySI⟩⟩
          ∧ MustParse "80Gi" = .ret ⟨85899345920, .BinarySI⟩
          ∧ (80 * 2 ^ 30 : Int) = 85899345920 := by
  refine ⟨_, enumerate_nat S env n, fun k d hk => ?_⟩
  obtain ⟨i, u, _, _, rfl⟩ := deviceLiteral_of_lookup _ 0 k d hk
  refine ⟨?_, rfl, rfl, rfl, rfl, MustParse_80Gi, by norm_num⟩
  have hkeys : (deviceLiteral (0 + i) u ⟨85899345920, .BinarySI⟩).Attributes.keys
      = ["driverVersion", "model", "uuid", "index"] := rfl
  rw [hkeys]
  decide

/-- C12. Mirror collision policy: when the list call succeeds with a collection of device
groups, the returned map has a name `x` as a key exactly when some device of some group is
named `x`, and the value under `x` is the last device named `x` in the flattened order
(groups in list order, devices in order within a group). A name has one entry only, and
when a later group holds the last device named `x`, that descriptor is the entry. -/
theorem getPseudoTopoDevices_lastWins {γ κ : Type} (client : Client γ κ) (ctx : γ) (st : κ)
    (list : ResourceSliceList) (h : (client.List ctx st).1 = (some list, none)) :
    ∃ all : AllocatableDevices,
      getPseudoTopoDevices client ctx st = .ret ((some all, none), (client.List ctx st).2)
      ∧ (∀ x : String, x ∈ all ↔ ∃ d ∈ flattenDevices list.Items, d.Name = x)
      ∧ (∀ x : String, AList.lookup x all = lastNamed x (flattenDevices list.Items))
      ∧ (∀ x : String, x ∈ all → all.keys.count x = 1)
      ∧ (∀ (before after : List ResourceSlice) (group : ResourceSlice) (x : String)
          (d : Device), list.Items = before ++ group :: after →
          lastNamed x group.Spec.Devices = some d →
          (∀ e ∈ flattenDevices after, e.Name ≠ x) →
          AList.lookup x all = some d) := by
  have hlook : ∀ x : String,
      AList.lookup x (getPseudoTopoDevices.loop list.Items ∅)
        = lastNamed x (flattenDevices list.Items) := by
    intro x
    rw [getPseudoTopoDevices_loop_eq, lookup_foldl_insert, AList.lookup_empty, Option.or_none]
  refine ⟨getPseudoTopoDevices.loop list.Items ∅, ?_, ?_, hlook, ?_, ?_⟩
  · simp only [getPseudoTopoDevices, h]
  · intro x
    rw [← AList.lookup_isSome, hlook, lastNamed_isSome]
  · intro x hx
    exact List.count_eq_one_of_mem (AList.keys_nodup _) (AList.mem_keys.1 hx)
  · intro before after group x d hsplit hd hafter
    rw [hlook, hsplit]
    have hflat : flattenDevices (before ++ group :: after)
        = flattenDevices before ++ group.Spec.Devices ++ flattenDevices after := by
      simp [flattenDevices]
    rw [hflat, lastNamed_append_of_none x _ _ hafter]
    exact lastNamed_append_of_some x _ _ d hd

/-- Instance of C12: two groups that both hold a device named `x`. -/
theorem getPseudoTopoDevices_lastWins_witness :
    (countingClient.List () 0).1 = (some sampleSlices, none)
      ∧ ∃ all : AllocatableDevices,
        getPseudoTopoDevices countingClient () 0
          = .ret ((some all, none), (countingClient.List () 0).2)
        ∧ (∀ x : String, x ∈ all ↔ ∃ d ∈ flattenDevices sampleSlices.Items, d.Name = x)
        ∧ (∀ x : String, AList.lookup x all = lastNamed x (flattenDevices sampleSlices.Items))
        ∧ (∀ x : String, x ∈ all → all.keys.count x = 1)
        ∧ (∀ (before after : List ResourceSlice) (group : ResourceSlice) (x : String)
            (d : Device), sampleSlices.Items = before ++ group :: after →
            lastNamed x group.Spec.Devices = some d →
            (∀ e ∈ flattenDevices after, e.Name ≠ x) →
            AList.lookup x all = some d) :=
  ⟨rfl, getPseudoTopoDevices_lastWins countingClient () 0 sampleSlices rfl⟩

/-- C13. When the list call returns an error, `getPseudoTopoDevices` returns that error
unchanged with a nil map, whatever list came with the error, and the remote side is in the
state that one list call leaves: no second call is made. When the list call returns a
list and a nil error, `getPseudoTopoDevices` returns a map and a nil error, again after
one call. -/
theorem getPseudoTopoDevices_error {γ κ : Type} (client : Client γ κ) (ctx : γ) (st : κ) :
    (∀ (p : Option ResourceSliceList) (e : GoError),
        (client.List ctx st).1 = (p, some e) →
        getPseudoTopoDevices client ctx st
          = .ret ((none, some e), (client.List ctx st).2))
      ∧ (∀ list : ResourceSliceList, (client.List ctx st).1 = (some list, none) →
          ∃ all : AllocatableDevices,
            getPseudoTopoDevices client ctx st
              = .ret ((some all, none), (client.List ctx st).2)) := by
  constructor
  · intro p e h
    simp only [getPseudoTopoDevices, h]
  · intro list h
    exact ⟨getPseudoTopoDevices.loop list.Items ∅, by simp only [getPseudoTopoDevices, h]⟩

/-- Instance of C13: a failing call that hands back a non-empty list next to its error;
the error comes back with a nil map and the call counter stands at one. -/
theorem getPseudoTopoDevices_error_witness :
    (failingClient.List () 0).1 = (some sampleSlices, some ⟨"connection refused"⟩)
      ∧ getPseudoTopoDevices failingClient () 0
          = .ret ((none, some ⟨"connection refused"⟩), 1) :=
  ⟨rfl, (getPseudoTopoDevices_error failingClient () 0).1 _ _ rfl⟩

/-- C14. In the set returned by `enumerateAllPossibleDevices` (count `n ≥ 0`) and in the set
returned by `getPseudoTopoDevices` after a successful list call, every entry is stored
under the name of its own descriptor, so the names of the descriptors of one set are
pairwise distinct. -/
theorem allocatableDevices_keyed_by_name :
    (∀ {σ : Type} (S : Source σ) (env : Env) (n : Nat), ∃ set : AllocatableDevices,
        enumerateAllPossibleDevices S env (n : Int) = .ret (set, none)
        ∧ (∀ (k : String) (d : Device), AList.lookup k set = some d → d.Name = k)
        ∧ (set.entries.map (fun e => e.2.Name)).Nodup)
      ∧ (∀ {γ κ : Type} (client : Client γ κ) (ctx : γ) (st : κ) (list : ResourceSliceList),
          (client.List ctx st).1 = (some list, none) →
          ∃ all : AllocatableDevices,
            getPseudoTopoDevices client ctx st
              = .ret ((some all, none), (client.List ctx st).2)
            ∧ (∀ (k : String) (d : Device), AList.lookup k all = some d → d.Name = k)
            ∧ (all.entries.map (fun e => e.2.Name)).Nodup) := by
  constructor
  · intro σ S env n
    have hname := deviceSet_name S (Getenv env "NODE_NAME") n
    exact ⟨_, enumerate_nat S env n, hname, names_nodup _ hname⟩
  · intro γ κ client ctx st list h
    have hname : ∀ (k : String) (d : Device),
        AList.lookup k (getPseudoTopoDevices.loop list.Items ∅) = some d → d.Name = k := by
      intro k d hk
      rw [getPseudoTopoDevices_loop_eq, lookup_foldl_insert, AList.lookup_empty,
        Option.or_none] at hk
      exact lastNamed_name k _ d hk
    exact ⟨getPseudoTopoDevices.loop list.Items ∅, by simp only [getPseudoTopoDevices, h],
      hname, names_nodup _ hname⟩

/-- C15. When `NODE_NAME` is not set, `enumerateAllPossibleDevices(n)`, `n ≥ 0`, does not
fail and returns the set it returns when `NODE_NAME` is the empty string: the identifiers
are those of `generateUUIDs("", n)`, derived from the hash value `0`. -/
theorem enumerateAllPossibleDevices_absent_seed {σ : Type} (S : Source σ) (env : Env)
    (n : Nat) (h : env "NODE_NAME" = none) :
    ∃ (set : AllocatableDevices) (uuids : List String),
      enumerateAllPossibleDevices S env (n : Int) = .ret (set, none)
      ∧ enumerateAllPossibleDevices S (withEmptyNodeName env) (n : Int) = .ret (set, none)
      ∧ generateUUIDs S [] (n : Int) = .ret uuids
      ∧ hash [] = 0
      ∧ ∀ i : Nat, i < n → ∃ (uuid : String) (d : Device),
          uuids[i]? = some uuid
          ∧ AList.lookup (deviceName i) set = some d
          ∧ AList.lookup "uuid" d.Attributes = some { StringValue := some uuid } := by
  have h1 : Getenv env "NODE_NAME" = [] := by simp [Getenv, h]
  have h2 : Getenv (withEmptyNodeName env) "NODE_NAME" = [] := by
    simp [Getenv, withEmptyNodeName]
  refine ⟨deviceSet S [] n, identifiers S [] n, ?_, ?_, generateUUIDs_nat S [] n, rfl, ?_⟩
  · rw [enumerate_nat, h1]
  · rw [enumerate_nat, h2]
  · intro i hi
    have hu := identifiers_getElem? S [] n i hi
    have hl := lookup_insertAll_index (identifiers S [] n) 0 ∅ i _ hu
    rw [Nat.zero_add] at hl
    exact ⟨_, _, hu, hl, rfl⟩

/-- Instance of C15: an environment without `NODE_NAME`, count 2. -/
theorem enumerateAllPossibleDevices_absent_seed_witness :
    bareEnv "NODE_NAME" = none
      ∧ ∃ (set : AllocatableDevices) (uuids : List String),
        enumerateAllPossibleDevices lcgSource bareEnv ((2 : Nat) : Int) = .ret (set, none)
        ∧ enumerateAllPossibleDevices lcgSource (withEmptyNodeName bareEnv) ((2 : Nat) : Int)
            = .ret (set, none)
        ∧ generateUUIDs lcgSource [] ((2 : Nat) : Int) = .ret uuids
        ∧ hash [] = 0
        ∧ ∀ i : Nat, i < 2 → ∃ (uuid : String) (d : Device),
            uuids[i]? = some uuid
            ∧ AList.lookup (deviceName i) set = some d
            ∧ AList.lookup "uuid" d.Attributes = some { StringValue := some uuid } :=
  ⟨by decide, enumerateAllPossibleDevices_absent_seed lcgSource bareEnv 2 (by decide)⟩

/-- C16. Identifiers are stable when the count grows: for every seed and all counts
`0 ≤ m ≤ n`, `generateUUIDs(seed, m)` is the prefix of length `m` of
`generateUUIDs(seed, n)`, and every entry of the set synthesized for `m` is an entry of the
set synthesized for `n`, under the same key and unchanged. -/
theorem generateUUIDs_prefix_stable {σ : Type} (S : Source σ) (env : Env) (seed : GoString)
    (m n : Nat) (hseed : Getenv env "NODE_NAME" = seed) (h : m ≤ n) :
    ∃ (um un : List String) (sm sn : AllocatableDevices),
      generateUUIDs S seed (m : Int) = .ret um
      ∧ generateUUIDs S seed (n : Int) = .ret un
      ∧ um = un.take m
      ∧ enumerateAllPossibleDevices S env (m : Int) = .ret (sm, none)
      ∧ enumerateAllPossibleDevices S env (n : Int) = .ret (sn, none)
      ∧ ∀ (k : String) (d : Device), AList.lookup k sm = some d → AList.lookup k sn = some d := by
  subst hseed
  exact ⟨_, _, _, _, generateUUIDs_nat S _ m, generateUUIDs_nat S _ n,
    identifiers_take S _ m n h, enumerate_nat S env m, enumerate_nat S env n,
    deviceSet_mono S _ m n h⟩

/-- Instance of C16: seed `node-1`, counts 2 and 5. -/
theorem generateUUIDs_prefix_stable_witness :
    Getenv sampleEnv "NODE_NAME" = [110, 111, 100, 101, 45, 49]
      ∧ (2 : Nat) ≤ 5
      ∧ ∃ (um un : List String) (sm sn : AllocatableDevices),
        generateUUIDs lcgSource [110, 111, 100, 101, 45, 49] ((2 : Nat) : Int) = .ret um
        ∧ generateUUIDs lcgSource [110, 111, 100, 101, 45, 49] ((5 : Nat) : Int) = .ret un
        ∧ um = un.take 2
        ∧ enumerateAllPossibleDevices lcgSource sampleEnv ((2 : Nat) : Int) = .ret (sm, none)
        ∧ enumerateAllPossibleDevices lcgSource sampleEnv ((5 : Nat) : Int) = .ret (sn, none)
        ∧ ∀ (k : String) (d : Device),
            AList.lookup k sm = some d → AList.lookup k sn = some d :=
  ⟨by decide, by decide,
    generateUUIDs_prefix_stable lcgSource sampleEnv [110, 111, 100, 101, 45, 49] 2 5
      (by decide) (by decide)⟩

end Discovery
